import Mathlib

/-!
# MEP server: service-record transcoding and service discovery

A shallow embedding of

* `mepserver/common/models/serviceinfo.go` (`ServiceInfo.ToServiceRequest`,
  `ServiceInfo.ToRegisterInstance`, `ServiceInfo.toEndpoints`, `registerToApigw`,
  `ServiceInfo.FromServiceInstance`, `ServiceInfo.fromEndpoints`, ...),
* `mepserver/common/util/apigwutil.go` (`AddApigwService`, `AddApigwRoute`,
  `getCipherSuites`, `ValidateServerName`, `TLSConfig`),
* `mepserver/mp1/plan_svc_discover.go` (`DiscoverDecode.OnRequest`,
  `DiscoverService.OnRequest`, `ToStrDiscover.OnRequest`, `Mp1CvtSrvDiscover`,
  `RspHook.OnRequest`, `instanceHook`).

Conventions of the embedding.

* A Go `string` is a Lean `String`.  The strings that the code slices by byte
  index (`strconv.FormatInt` output, the generated identifier) are ASCII, so
  byte indices and character indices coincide.
* A Go run-time panic (slice or index out of range) is the result `none`.
* A Go `map[string]string` is an association list in which the most recent
  binding of a key wins and a missing key reads as the empty string.
* Go `int` is the 64-bit signed integer; unsigned 64-bit arithmetic is done on
  `Nat` with an explicit `% 2 ^ 64`.
* Everything the code obtains from outside the repository sources at hand
  (clock, identifier generator, JSON library, constants of `meputil`) is a field
  of the environment record `Env`.
-/

namespace Mep

/-! ## `strconv` -/

/-- Decimal digits of `n`, most significant first; `fuel` bounds the recursion. -/
def decimalDigits : Nat → Nat → List Char
  | 0, _ => []
  | fuel + 1, n =>
    if n < 10 then [Nat.digitChar n]
    else decimalDigits fuel (n / 10) ++ [Nat.digitChar (n % 10)]

/-- Go `strconv.FormatUint(n, 10)`. -/
def FormatUint (n : Nat) : String := ⟨decimalDigits (n + 1) n⟩

/-- Go `strconv.FormatInt(i, 10)`: a minus sign for negative values, then the
decimal digits of the magnitude. -/
def FormatInt (i : Int) : String :=
  if i < 0 then ⟨'-' :: decimalDigits (i.natAbs + 1) i.natAbs⟩ else FormatUint i.toNat

/-- Go `strconv.Itoa(i)`, which is `FormatInt(int64(i), 10)`. -/
def Itoa (i : Int) : String := FormatInt i

/-- Go `strconv.FormatBool`. -/
def FormatBool (b : Bool) : String := if b then "true" else "false"

/-- The two kinds of `strconv.NumError`. -/
inductive NumErr
  | ErrSyntax
  | ErrRange
  deriving DecidableEq, Repr

/-- Value of a decimal digit byte, `none` for any other character. -/
def digitVal (c : Char) : Option Nat :=
  if 48 ≤ c.toNat ∧ c.toNat ≤ 57 then some (c.toNat - 48) else none

/-- The digit loop of Go `strconv.ParseUint(s, 10, 64)`.  `n` is the value
accumulated so far.  An invalid byte stops the loop with value `0` and a syntax
error; an overflow stops it at once with the maximum value and a range error,
without looking at the remaining bytes. -/
def parseUintLoop : List Char → Nat → Nat × Option NumErr
  | [], n => (n, none)
  | c :: cs, n =>
    match digitVal c with
    | none => (0, some NumErr.ErrSyntax)
    | some d =>
      if n ≥ (2 ^ 64 - 1) / 10 + 1 then (2 ^ 64 - 1, some NumErr.ErrRange)
      else
        let n10 := (n * 10) % 2 ^ 64
        let n1 := (n10 + d) % 2 ^ 64
        if n1 < n10 ∨ n1 > 2 ^ 64 - 1 then (2 ^ 64 - 1, some NumErr.ErrRange)
        else parseUintLoop cs n1

/-- Go `strconv.ParseUint(s, 10, 64)`. -/
def ParseUint (s : List Char) : Nat × Option NumErr :=
  if s = [] then (0, some NumErr.ErrSyntax) else parseUintLoop s 0

/-- Conversion `int64(x)` of an unsigned 64-bit value, and 64-bit negation. -/
def toInt64 (z : Int) : Int := (z + 2 ^ 63) % 2 ^ 64 - 2 ^ 63

/-- Go `strconv.ParseInt(s, 10, 0)` on a 64-bit platform. -/
def ParseInt (s : List Char) : Int × Option NumErr :=
  match s with
  | [] => (0, some NumErr.ErrSyntax)
  | c :: cs =>
    let neg := c = '-'
    let rest := if c = '+' ∨ c = '-' then cs else s
    let r := ParseUint rest
    if r.2 = some NumErr.ErrSyntax then (0, some NumErr.ErrSyntax)
    else if ¬ neg ∧ r.1 ≥ 2 ^ 63 then (2 ^ 63 - 1, some NumErr.ErrRange)
    else if neg ∧ r.1 > 2 ^ 63 then (-(2 ^ 63), some NumErr.ErrRange)
    else
      let n := toInt64 r.1
      (if neg then toInt64 (-n) else n, none)

/-- The loop of the fast path of Go `strconv.Atoi`: `ch -= '0'; if ch > 9
then syntax error; n = n*10 + int(ch)`.  It runs on at most 18 bytes, so `n`
stays below `10 ^ 18` and the `int` arithmetic cannot overflow. -/
def atoiFastLoop : List Char → Int → Option Int
  | [], n => some n
  | c :: cs, n =>
    match digitVal c with
    | none => none
    | some d => atoiFastLoop cs (n * 10 + d)

/-- Go `strconv.Atoi(s)` on a 64-bit platform: value and error.  Strings of 1
to 18 bytes take the fast path, every other string goes through `ParseInt`. -/
def Atoi (s : String) : Int × Option NumErr :=
  let sLen := s.utf8ByteSize
  if 0 < sLen ∧ sLen < 19 then
    match s.data with
    | [] => (0, some NumErr.ErrSyntax)
    | c :: cs =>
      let signed := c = '-' ∨ c = '+'
      let body := if signed then cs else c :: cs
      if signed ∧ body.length < 1 then (0, some NumErr.ErrSyntax)
      else
        match atoiFastLoop body 0 with
        | none => (0, some NumErr.ErrSyntax)
        | some n => (if c = '-' then -n else n, none)
  else ParseInt s.data

/-- Go `strconv.ParseBool`: value and whether an error is returned. -/
def ParseBool (str : String) : Bool × Bool :=
  if str = "1" ∨ str = "t" ∨ str = "T" ∨ str = "true" ∨ str = "TRUE" ∨ str = "True" then
    (true, false)
  else if str = "0" ∨ str = "f" ∨ str = "F" ∨ str = "false" ∨ str = "FALSE" ∨ str = "False" then
    (false, false)
  else (false, true)

/-! ## Data model -/

/-- A Go `map[string]string`; the first binding of a key is the current one. -/
abbrev Properties := List (String × String)

/-- Go `m[k]`: the value bound to `k`, the empty string when `k` is missing. -/
def mapGet : Properties → String → String
  | [], _ => ""
  | (k', v) :: rest, k => if k' = k then v else mapGet rest k

/-- Go `m[k] = v`. -/
def mapSet (m : Properties) (k v : String) : Properties := (k, v) :: m

/-- Go `s[from:to]` on an ASCII string; `none` when the bounds are out of range. -/
def slice (s : String) (i j : Nat) : Option String :=
  if i ≤ j ∧ j ≤ s.length then some ⟨(s.data.take j).drop i⟩ else none

/-- A Go value held in an `interface{}` (the `Alternative` endpoint); the code
only tests it against `nil` and hands it to the JSON library. -/
structure GoValue where
  handle : Nat
  deriving DecidableEq, Repr

/-- Fields of `models.CategoryRef` used by the code. -/
structure CategoryRef where
  Href : String := ""
  ID : String := ""
  Name : String := ""
  Version : String := ""
  deriving DecidableEq, Repr

/-- Fields of `models.EndPointInfoAddress`: `Host string`, `Port uint32`. -/
structure EndPointInfoAddress where
  Host : String := ""
  Port : Nat := 0
  deriving DecidableEq, Repr

/-- Fields of `models.EndPointInfo`; a `nil` slice is the empty list, a `nil`
interface is `none`. -/
structure EndPointInfo where
  Uris : List String := []
  Addresses : List EndPointInfoAddress := []
  Alternative : Option GoValue := none
  deriving DecidableEq, Repr

/-- Fields of `models.SecurityInfoOAuth2Info`. -/
structure OAuth2Info where
  GrantTypes : List String := []
  TokenEndpoint : String := ""
  deriving DecidableEq, Repr

/-- Fields of `models.SecurityInfo`. -/
structure SecurityInfo where
  OAuth2Info : OAuth2Info := {}
  deriving DecidableEq, Repr

/-- Fields of `models.TransportInfo` used by the code. -/
structure TransportInfo where
  ID : String := ""
  Name : String := ""
  Description : String := ""
  TransType : String := ""
  Protocol : String := ""
  Version : String := ""
  Endpoint : EndPointInfo := {}
  Security : SecurityInfo := {}
  deriving DecidableEq, Repr

/-- Go `models.Selves`. -/
structure Selves where
  Href : String := ""
  deriving DecidableEq, Repr

/-- Go `models.Link`. -/
structure Link where
  Self : Selves := {}
  deriving DecidableEq, Repr

/-- Go `models.ServiceInfo`; the default value is the zero value `ServiceInfo{}`. -/
structure ServiceInfo where
  SerInstanceId : String := ""
  SerName : String := ""
  SerCategory : CategoryRef := {}
  Version : String := ""
  State : String := ""
  TransportID : String := ""
  TransportInfo : TransportInfo := {}
  Serializer : String := ""
  ScopeOfLocality : String := ""
  ConsumedLocalOnly : Bool := false
  IsLocal : Bool := false
  LivenessInterval : Int := 0
  Links : Link := {}
  deriving DecidableEq, Repr

/-- The two modes of `proto.HealthCheck`. -/
inductive HealthCheckMode
  | CHECK_BY_HEARTBEAT
  | CHECK_BY_PLATFORM
  deriving DecidableEq, Repr

/-- Go `proto.HealthCheck`. -/
structure HealthCheck where
  Mode : HealthCheckMode
  Port : Int
  Interval : Int
  Times : Int
  Url : String
  deriving DecidableEq, Repr

/-- Fields of `proto.MicroService` written by `ToServiceRequest`. -/
structure MicroService where
  AppId : String := ""
  ServiceName : String := ""
  Version : String := ""
  Status : String := ""
  deriving DecidableEq, Repr

/-- Go `proto.CreateServiceRequest`; `Service` is a pointer. -/
structure CreateServiceRequest where
  Service : Option MicroService := none
  deriving DecidableEq, Repr

/-- Fields of `proto.MicroServiceInstance` used by the code; `Properties` is
`none` for a `nil` map. -/
structure MicroServiceInstance where
  InstanceId : String := ""
  ServiceId : String := ""
  Endpoints : List String := []
  HostName : String := ""
  Status : String := ""
  Properties : Option Properties := none
  HealthCheck : Option HealthCheck := none
  Timestamp : String := ""
  ModTimestamp : String := ""
  Version : String := ""
  deriving DecidableEq, Repr

/-- Go `proto.RegisterInstanceRequest`; `Instance` is a pointer. -/
structure RegisterInstanceRequest where
  Instance : Option MicroServiceInstance := none
  deriving DecidableEq, Repr

/-- Go `meputil.SerInfo`. -/
structure SerInfo where
  SerName : String
  Uris : List String
  deriving DecidableEq, Repr

/-- Go `meputil.RouteInfo`. -/
structure RouteInfo where
  Id : Int
  AppId : String
  SerInfo : SerInfo
  deriving DecidableEq, Repr

/-- The arguments of one `SendPostRequest(consumerURL, jsonStr)` call. -/
structure PostRequest where
  consumerURL : String
  jsonStr : String
  deriving DecidableEq, Repr

/-- One call to the gateway client: the `meputil` function invoked, its
argument, and for the two functions at hand the POST request they issue. -/
inductive GwCall
  | AddApigwService (routeInfo : RouteInfo) (post : PostRequest)
  | AddApigwRoute (routeInfo : RouteInfo) (post : PostRequest)
  | EnableJwtPlugin (routeInfo : RouteInfo)
  deriving DecidableEq, Repr

/-- What the transcoding code obtains from outside the sources at hand. -/
structure Env where
  /-- The constant `meputil.DefaultHeartbeatInterval`. -/
  DefaultHeartbeatInterval : Int
  /-- Whether `meputil.InfoToProperties` records an empty value. -/
  storeEmpty : Bool
  /-- Result of `time.Now().Unix()`. -/
  nowUnix : Int
  /-- Result of `time.Now().UTC().UnixNano()`. -/
  nowUnixNano : Int
  /-- Result of `util.GenerateUuid()`. -/
  uuid : String
  /-- Go `json.Marshal` as text; `none` when it returns an error. -/
  jsonMarshal : GoValue → Option String
  /-- The function `meputil.JsonTextToObj`: the object and whether `err != nil`. -/
  JsonTextToObj : String → Option GoValue × Bool
  /-- The function `meputil.GetHostPort`. -/
  GetHostPort : String → String × Int
  /-- Result of `GetAppConfig()`, read as `appConfig[key]`. -/
  appConfig : String → String

/-- Modelled from the spec: the constant `meputil.InactiveState`, which is not
among the sources; the lifecycle state is `ACTIVE` or `INACTIVE` (spec §3). -/
def meputil.InactiveState : String := "INACTIVE"

/-- Modelled from the spec: the constant `meputil.Uris`, which is not among the
sources; the endpoint kind of a URI list is `"uris"` (spec §4.4). -/
def meputil.Uris : String := "uris"

/-- Modelled from the spec: the function `meputil.InfoToProperties`, which is not
among the sources.  It records `value` under `key` in the property bag (spec
§3).  Whether an empty `value` is recorded or skipped is the environment flag
`storeEmpty`. -/
def meputil.InfoToProperties (env : Env) (properties : Properties) (key value : String) :
    Properties :=
  if value = "" ∧ env.storeEmpty = false then properties else mapSet properties key value

/-! ## `apigwutil.go` -/

/-- The POST request of `AddApigwService`; `none` when `Uris[0]` is out of range. -/
def AddApigwService (env : Env) (routeInfo : RouteInfo) : Option PostRequest :=
  let serName := routeInfo.SerInfo.SerName
  let kongServiceUrl :=
    "https://" ++ env.appConfig "apigw_host" ++ ":" ++ env.appConfig "apigw_port" ++ "/services"
  match routeInfo.SerInfo.Uris with
  | [] => none
  | serUrl :: _ =>
    some ⟨kongServiceUrl, "\x7b \"url\": \"" ++ serUrl ++ "\", \"name\": \"" ++ serName ++ "\" \x7d"⟩

/-- The POST request of `AddApigwRoute`. -/
def AddApigwRoute (env : Env) (routeInfo : RouteInfo) : PostRequest :=
  let serName := routeInfo.SerInfo.SerName
  let kongRouteUrl :=
    "https://" ++ env.appConfig "apigw_host" ++ ":" ++ env.appConfig "apigw_port"
      ++ "/services/" ++ serName ++ "/routes"
  ⟨kongRouteUrl, "\x7b \"paths\": [\"/" ++ serName ++ "\"], \"name\": \"" ++ serName ++ "\" \x7d"⟩

/-! ## `strings` -/

/-- Go `strings.Join(elems, sep)`. -/
def Join : List String → String → String
  | [], _ => ""
  | [a], _ => a
  | a :: b :: rest, sep => a ++ sep ++ Join (b :: rest) sep

/-- The pieces of a character list between occurrences of `sep`. -/
def splitChars (sep : Char) : List Char → List (List Char)
  | [] => [[]]
  | c :: cs =>
    if c = sep then [] :: splitChars sep cs
    else
      match splitChars sep cs with
      | [] => [[c]]
      | piece :: pieces => (c :: piece) :: pieces

/-- Go `strings.Split(s, sep)` for a separator of one character. -/
def Split (s : String) (sep : Char) : List String :=
  (splitChars sep s.data).map String.mk

/-! ## `serviceinfo.go`: encoding -/

/-- Go `ServiceInfo.ToServiceRequest`; the result is the request after the call
(`none` for a `nil` request, which is only logged). -/
def ToServiceRequest (s : ServiceInfo) (req : Option CreateServiceRequest) :
    Option CreateServiceRequest :=
  match req with
  | some req =>
    let service : MicroService := match req.Service with
      | none => {}
      | some service => service
    let service := { service with AppId := "" }
    let service := { service with ServiceName := s.SerName }
    let service := { service with Version := s.Version }
    let service := { service with Status := "UP" }
    let service :=
      if s.State = meputil.InactiveState then { service with Status := "DOWN" } else service
    some { req with Service := some service }
  | none => none

/-- Go `registerToApigw`: the gateway calls it makes, in order; `none` when
`Addresses[0]` or `Uris[0]` is out of range. -/
def registerToApigw (env : Env) (serviceInfo : ServiceInfo) (serviceId : String) :
    Option (List GwCall) :=
  let serName := serviceInfo.SerName ++ serviceId
  match serviceInfo.TransportInfo.Endpoint.Addresses with
  | [] => none
  | address :: _ =>
    let uri := "http://" ++ address.Host ++ ":" ++ FormatUint address.Port ++ "/"
    let uris := [uri]
    let serInfo : SerInfo := { SerName := serName, Uris := uris }
    let routeInfo : RouteInfo := { Id := 1, AppId := serviceId, SerInfo := serInfo }
    match AddApigwService env routeInfo with
    | none => none
    | some post =>
      some [GwCall.AddApigwService routeInfo post,
            GwCall.AddApigwRoute routeInfo (AddApigwRoute env routeInfo),
            GwCall.EnableJwtPlugin routeInfo]

/-- Go `ServiceInfo.toEndpoints`: the endpoint list, the endpoint kind and the
gateway calls made; `none` when the code panics. -/
def toEndpoints (env : Env) (s : ServiceInfo) : Option (List String × String × List GwCall) :=
  if s.TransportInfo.Endpoint.Uris.length ≠ 0 then
    some (s.TransportInfo.Endpoint.Uris, meputil.Uris, [])
  else if s.TransportInfo.Endpoint.Addresses.length ≠ 0 then
    match slice env.uuid 0 20 with
    | none => none
    | some uuid =>
      match registerToApigw env s uuid with
      | none => none
      | some calls =>
        some (["https://mep-api-gw.mep:8443/" ++ (s.SerName ++ uuid)], meputil.Uris, calls)
  else
    match s.TransportInfo.Endpoint.Alternative with
    | some alternative =>
      match env.jsonMarshal alternative with
      | none => some ([], "", [])
      | some jsonText => some ([] ++ [jsonText], "alternative", [])
    | none => some ([], "", [])

/-- Go `ServiceInfo.transportInfoToProperties` on a non-nil map.  The grant
types are joined with the full-width comma U+FF0C, as in the source. -/
def transportInfoToProperties (env : Env) (s : ServiceInfo) (properties : Properties) :
    Properties :=
  let properties := meputil.InfoToProperties env properties "transportInfo/id" s.TransportInfo.ID
  let properties :=
    meputil.InfoToProperties env properties "transportInfo/name" s.TransportInfo.Name
  let properties :=
    meputil.InfoToProperties env properties "transportInfo/description"
      s.TransportInfo.Description
  let properties :=
    meputil.InfoToProperties env properties "transportInfo/type" s.TransportInfo.TransType
  let properties :=
    meputil.InfoToProperties env properties "transportInfo/protocol" s.TransportInfo.Protocol
  let properties :=
    meputil.InfoToProperties env properties "transportInfo/version" s.TransportInfo.Version
  let grantTypes := Join s.TransportInfo.Security.OAuth2Info.GrantTypes "，"
  let properties :=
    meputil.InfoToProperties env properties "transportInfo/security/oAuth2Info/grantTypes"
      grantTypes
  meputil.InfoToProperties env properties "transportInfo/security/oAuth2Info/tokenEndpoint"
    s.TransportInfo.Security.OAuth2Info.TokenEndpoint

/-- Go `ServiceInfo.serCategoryToProperties` on a non-nil map. -/
def serCategoryToProperties (env : Env) (s : ServiceInfo) (properties : Properties) :
    Properties :=
  let properties := meputil.InfoToProperties env properties "serCategory/href" s.SerCategory.Href
  let properties := meputil.InfoToProperties env properties "serCategory/id" s.SerCategory.ID
  let properties := meputil.InfoToProperties env properties "serCategory/name" s.SerCategory.Name
  meputil.InfoToProperties env properties "serCategory/version" s.SerCategory.Version

/-- State after `ServiceInfo.ToRegisterInstance`: the request, the receiver
(which the call mutates) and the gateway calls made. -/
structure Registered where
  req : Option RegisterInstanceRequest
  s : ServiceInfo
  calls : List GwCall
  deriving DecidableEq, Repr

/-- Go `ServiceInfo.ToRegisterInstance`; `none` when the code panics. -/
def ToRegisterInstance (env : Env) (s : ServiceInfo) (req : Option RegisterInstanceRequest) :
    Option Registered :=
  match req with
  | none => some { req := none, s := s, calls := [] }
  | some req =>
    let inst : MicroServiceInstance := match req.Instance with
      | none => {}
      | some inst => inst
    let properties : Properties := []
    let properties := mapSet properties "serName" s.SerName
    let properties := serCategoryToProperties env s properties
    let inst := { inst with Version := s.Version }
    let inst := { inst with Timestamp := FormatInt env.nowUnix }
    let inst := { inst with ModTimestamp := inst.Timestamp }
    let inst := { inst with Status := "UP" }
    let inst :=
      if s.State = meputil.InactiveState then { inst with Status := "DOWN" } else inst
    let properties := meputil.InfoToProperties env properties "transportId" s.TransportID
    let properties := meputil.InfoToProperties env properties "serializer" s.Serializer
    let properties := meputil.InfoToProperties env properties "ScopeOfLocality" s.ScopeOfLocality
    let properties :=
      meputil.InfoToProperties env properties "ConsumedLocalOnly" (FormatBool s.ConsumedLocalOnly)
    let properties := meputil.InfoToProperties env properties "IsLocal" (FormatBool s.IsLocal)
    let properties := meputil.InfoToProperties env properties "livenessInterval" (Itoa 0)
    let properties :=
      if s.LivenessInterval ≠ (0 : Int) then
        meputil.InfoToProperties env properties "livenessInterval"
          (Itoa env.DefaultHeartbeatInterval)
      else properties
    let s :=
      if s.LivenessInterval ≠ (0 : Int) then
        { s with LivenessInterval := env.DefaultHeartbeatInterval }
      else s
    let properties := meputil.InfoToProperties env properties "mecState" s.State
    let secNanoSec := FormatInt env.nowUnixNano
    match slice secNanoSec 0 (secNanoSec.length / 2 + 1) with
    | none => none
    | some seconds =>
      let properties := meputil.InfoToProperties env properties "timestamp/seconds" seconds
      match slice secNanoSec (secNanoSec.length / 2 + 1) secNanoSec.length with
      | none => none
      | some nanoseconds =>
        let properties :=
          meputil.InfoToProperties env properties "timestamp/nanoseconds" nanoseconds
        let inst := { inst with HostName := "default" }
        match toEndpoints env s with
        | none => none
        | some (endpoints, epType, calls) =>
          let inst := { inst with Endpoints := endpoints }
          let properties := mapSet properties "endPointType" epType
          let healthCheck : HealthCheck :=
            { Mode := HealthCheckMode.CHECK_BY_HEARTBEAT, Port := 0, Interval := 2147483647 - 1,
              Times := 0, Url := "" }
          let inst := { inst with HealthCheck := some healthCheck }
          let properties := transportInfoToProperties env s properties
          let inst := { inst with Properties := some properties }
          some { req := some { req with Instance := some inst }, s := s, calls := calls }

/-! ## `serviceinfo.go`: decoding -/

/-- Go `ServiceInfo.serCategoryFromProperties` on a non-nil map. -/
def serCategoryFromProperties (s : ServiceInfo) (properties : Properties) : ServiceInfo :=
  let s := { s with SerCategory := { s.SerCategory with Href := mapGet properties "serCategory/href" } }
  let s := { s with SerCategory := { s.SerCategory with ID := mapGet properties "serCategory/id" } }
  let s := { s with SerCategory := { s.SerCategory with Name := mapGet properties "serCategory/name" } }
  { s with SerCategory := { s.SerCategory with Version := mapGet properties "serCategory/version" } }

/-- Replace the endpoint of a service description. -/
def setEndpoint (s : ServiceInfo) (e : EndPointInfo) : ServiceInfo :=
  { s with TransportInfo := { s.TransportInfo with Endpoint := e } }

/-- Go `ServiceInfo.fromEndpoints`; `none` when `uris[0]` is out of range.  The
alternative is assigned when `err != nil`, as in the source. -/
def fromEndpoints (env : Env) (s : ServiceInfo) (uris : List String) (epType : String) :
    Option ServiceInfo :=
  if epType = "uris" then
    some (setEndpoint s { s.TransportInfo.Endpoint with Uris := uris })
  else
    let s :=
      if epType = "addresses" then
        setEndpoint s { s.TransportInfo.Endpoint with
          Addresses := uris.map fun v =>
            { Host := (env.GetHostPort v).1, Port := ((env.GetHostPort v).2 % 2 ^ 32).toNat } }
      else s
    if epType = "alternative" then
      match uris with
      | [] => none
      | uri0 :: _ =>
        if (env.JsonTextToObj uri0).2 then
          some (setEndpoint s
            { s.TransportInfo.Endpoint with Alternative := (env.JsonTextToObj uri0).1 })
        else some s
    else some s

/-- Go `ServiceInfo.transportInfoFromProperties` on a non-nil map.  The grant
types are split at the ASCII comma, as in the source. -/
def transportInfoFromProperties (s : ServiceInfo) (properties : Properties) : ServiceInfo :=
  let grantTypes := mapGet properties "transportInfo/security/oAuth2Info/grantTypes"
  { s with TransportInfo :=
    { s.TransportInfo with
      ID := mapGet properties "transportInfo/id"
      Name := mapGet properties "transportInfo/name"
      Description := mapGet properties "transportInfo/description"
      TransType := mapGet properties "transportInfo/type"
      Protocol := mapGet properties "transportInfo/protocol"
      Version := mapGet properties "transportInfo/version"
      Security :=
        { OAuth2Info :=
          { GrantTypes := Split grantTypes ','
            TokenEndpoint := mapGet properties "transportInfo/security/oAuth2Info/tokenEndpoint" } } } }

/-- Go `ServiceInfo.FromServiceInstance`: the receiver after the call; `none`
when the code panics. -/
def FromServiceInstance (env : Env) (s : ServiceInfo) (inst : Option MicroServiceInstance) :
    Option ServiceInfo :=
  match inst with
  | none => some s
  | some inst =>
    match inst.Properties with
    | none => some s
    | some properties =>
      let s := { s with SerInstanceId := inst.ServiceId ++ inst.InstanceId }
      let s := serCategoryFromProperties s properties
      let s := { s with Version := inst.Version }
      let s := { s with State := mapGet properties "mecState" }
      let s := { s with SerName := mapGet properties "serName" }
      let s := { s with TransportID := mapGet properties "transportId" }
      let s := { s with Serializer := mapGet properties "serializer" }
      let epType := mapGet properties "endPointType"
      let s := { s with ScopeOfLocality := mapGet properties "ScopeOfLocality" }
      let s := { s with LivenessInterval := (Atoi (mapGet properties "livenessInterval")).1 }
      let s :=
        if s.LivenessInterval ≠ (0 : Int) then
          { s with Links := { Self := { Href := mapGet properties "liveness" } } }
        else s
      let s := { s with ConsumedLocalOnly := (ParseBool (mapGet properties "ConsumedLocalOnly")).1 }
      let s := { s with IsLocal := (ParseBool (mapGet properties "IsLocal")).1 }
      match fromEndpoints env s inst.Endpoints epType with
      | none => none
      | some s => some (transportInfoFromProperties s properties)

/-- Go `Decode(Encode(s))`: `ToRegisterInstance` on the non-nil request `req`,
then `FromServiceInstance` of the resulting instance into a fresh `ServiceInfo`. -/
def roundTrip (env : Env) (s : ServiceInfo) (req : RegisterInstanceRequest) :
    Option ServiceInfo :=
  match ToRegisterInstance env s (some req) with
  | none => none
  | some r =>
    match r.req with
    | none => none
    | some req => FromServiceInstance env {} req.Instance

/-! ## Derived notions used in the statements -/

/-- The state `ToRegisterInstance` leaves behind on a non-nil request, field by
field: `r` is the result, `inst` the instance of the request, `props` its
property bag, `(eps, kind)` the result of `toEndpoints`. -/
structure EncodeFacts (env : Env) (s : ServiceInfo)
    (r : Registered) (inst : MicroServiceInstance) (props : Properties)
    (eps : List String) (kind : String) : Prop where
  hte : toEndpoints env s = some (eps, kind, r.calls)
  hs : r.s = { s with LivenessInterval :=
      if s.LivenessInterval ≠ 0 then env.DefaultHeartbeatInterval else s.LivenessInterval }
  heps : inst.Endpoints = eps
  hversion : inst.Version = s.Version
  hstatus : inst.Status = if s.State = meputil.InactiveState then "DOWN" else "UP"
  serName : mapGet props "serName" = s.SerName
  href : mapGet props "serCategory/href" = s.SerCategory.Href
  catId : mapGet props "serCategory/id" = s.SerCategory.ID
  catName : mapGet props "serCategory/name" = s.SerCategory.Name
  catVersion : mapGet props "serCategory/version" = s.SerCategory.Version
  transportId : mapGet props "transportId" = s.TransportID
  serializer : mapGet props "serializer" = s.Serializer
  scope : mapGet props "ScopeOfLocality" = s.ScopeOfLocality
  consumed : mapGet props "ConsumedLocalOnly" = FormatBool s.ConsumedLocalOnly
  isLocal : mapGet props "IsLocal" = FormatBool s.IsLocal
  liveness : mapGet props "livenessInterval" =
    if s.LivenessInterval ≠ 0 then Itoa env.DefaultHeartbeatInterval else Itoa 0
  mecState : mapGet props "mecState" = s.State
  seconds : mapGet props "timestamp/seconds" =
    ⟨(FormatInt env.nowUnixNano).data.take ((FormatInt env.nowUnixNano).length / 2 + 1)⟩
  nanoseconds : mapGet props "timestamp/nanoseconds" =
    ⟨(FormatInt env.nowUnixNano).data.drop ((FormatInt env.nowUnixNano).length / 2 + 1)⟩
  endPointType : mapGet props "endPointType" = kind
  tiId : mapGet props "transportInfo/id" = s.TransportInfo.ID
  tiName : mapGet props "transportInfo/name" = s.TransportInfo.Name
  tiDescription : mapGet props "transportInfo/description" = s.TransportInfo.Description
  tiType : mapGet props "transportInfo/type" = s.TransportInfo.TransType
  tiProtocol : mapGet props "transportInfo/protocol" = s.TransportInfo.Protocol
  tiVersion : mapGet props "transportInfo/version" = s.TransportInfo.Version
  grantTypes : mapGet props "transportInfo/security/oAuth2Info/grantTypes" =
    Join s.TransportInfo.Security.OAuth2Info.GrantTypes "，"
  tokenEndpoint : mapGet props "transportInfo/security/oAuth2Info/tokenEndpoint" =
    s.TransportInfo.Security.OAuth2Info.TokenEndpoint
  selfLink : mapGet props "liveness" = ""

/-- The receiver `s'` after `FromServiceInstance` of `inst` (property bag `props`) into
`s0`, field by field; `s1` is the result of `fromEndpoints` on `s0`. -/
structure DecodeFacts (inst : MicroServiceInstance) (props : Properties)
    (s0 s1 s' : ServiceInfo) : Prop where
  serInstanceId : s'.SerInstanceId = inst.ServiceId ++ inst.InstanceId
  category : s'.SerCategory =
    { Href := mapGet props "serCategory/href", ID := mapGet props "serCategory/id",
      Name := mapGet props "serCategory/name", Version := mapGet props "serCategory/version" }
  version : s'.Version = inst.Version
  state : s'.State = mapGet props "mecState"
  serName : s'.SerName = mapGet props "serName"
  transportID : s'.TransportID = mapGet props "transportId"
  serializer : s'.Serializer = mapGet props "serializer"
  scope : s'.ScopeOfLocality = mapGet props "ScopeOfLocality"
  liveness : s'.LivenessInterval = (Atoi (mapGet props "livenessInterval")).1
  links : s'.Links =
    if (Atoi (mapGet props "livenessInterval")).1 ≠ 0 then
      { Self := { Href := mapGet props "liveness" } }
    else s0.Links
  consumed : s'.ConsumedLocalOnly = (ParseBool (mapGet props "ConsumedLocalOnly")).1
  isLocal : s'.IsLocal = (ParseBool (mapGet props "IsLocal")).1
  endpoint : s'.TransportInfo.Endpoint = s1.TransportInfo.Endpoint
  tiId : s'.TransportInfo.ID = mapGet props "transportInfo/id"
  tiName : s'.TransportInfo.Name = mapGet props "transportInfo/name"
  tiDescription : s'.TransportInfo.Description = mapGet props "transportInfo/description"
  tiType : s'.TransportInfo.TransType = mapGet props "transportInfo/type"
  tiProtocol : s'.TransportInfo.Protocol = mapGet props "transportInfo/protocol"
  tiVersion : s'.TransportInfo.Version = mapGet props "transportInfo/version"
  grantTypes : s'.TransportInfo.Security.OAuth2Info.GrantTypes =
    Split (mapGet props "transportInfo/security/oAuth2Info/grantTypes") ','
  tokenEndpoint : s'.TransportInfo.Security.OAuth2Info.TokenEndpoint =
    mapGet props "transportInfo/security/oAuth2Info/tokenEndpoint"

/-- An optionally signed, non-empty run of decimal digits. -/
def isDecimalInteger (v : String) : Bool :=
  match v.data with
  | [] => false
  | c :: cs =>
    if c = '+' ∨ c = '-' then !cs.isEmpty && cs.all fun x => (digitVal x).isSome
    else (c :: cs).all fun x => (digitVal x).isSome

/-! ## Sample inputs -/

/-- A sample environment: heartbeat default 60, a 32-character identifier. -/
def sampleEnv : Env where
  DefaultHeartbeatInterval := 60
  storeEmpty := false
  nowUnix := 1600000000
  nowUnixNano := 1600000000123456789
  uuid := "0123456789abcdef0123456789abcdef"
  jsonMarshal := fun v => some ("json" ++ FormatUint v.handle)
  JsonTextToObj := fun _ => (some ⟨7⟩, false)
  GetHostPort := fun _ => ("", 0)
  appConfig := fun key => if key = "apigw_host" then "kong" else "8444"

/-- A valid service description with one address and no URI. -/
def addressService : ServiceInfo :=
  { SerName := "svc", Version := "1.0", State := "ACTIVE", Serializer := "JSON",
    LivenessInterval := 5,
    TransportInfo :=
      { ID := "t1", Name := "REST", TransType := "REST_HTTP", Protocol := "HTTP", Version := "2.0",
        Endpoint := { Addresses := [{ Host := "10.0.0.5", Port := 8080 }] },
        Security := { OAuth2Info := { GrantTypes := ["OAUTH2_CLIENT_CREDENTIALS"],
                                      TokenEndpoint := "/token" } } } }

/-- A valid service description with a URI list and an address list. -/
def uriService : ServiceInfo :=
  { addressService with
    State := "INACTIVE"
    TransportInfo := { addressService.TransportInfo with
      Endpoint := { Uris := ["http://a/"], Addresses := [{ Host := "10.0.0.5", Port := 8080 }] } } }

/-- A valid service description whose endpoint is an alternative. -/
def alternativeService : ServiceInfo :=
  { addressService with
    TransportInfo := { addressService.TransportInfo with
      Endpoint := { Alternative := some ⟨7⟩ } } }

/-- A registry instance whose `livenessInterval` is a run of digits too long
for 64 bits, followed by a letter. -/
def overflowInstance : MicroServiceInstance :=
  { ServiceId := "s", InstanceId := "i",
    Properties := some [("livenessInterval", "99999999999999999999x"), ("liveness", "/hb"),
      ("serName", "svc")] }

/-- A registry instance whose `livenessInterval` is the word `soon`. -/
def plainInstance : MicroServiceInstance :=
  { ServiceId := "s", InstanceId := "i", Version := "1.0", Endpoints := ["http://a/"],
    Properties := some [("livenessInterval", "soon"), ("liveness", "/hb"), ("serName", "svc"),
      ("endPointType", "uris"), ("mecState", "ACTIVE"), ("IsLocal", "true")] }

/-! ## `plan_svc_discover.go`: the dispatch stage -/

/-- Go `url.Values`, a `map[string][]string`. -/
abbrev UrlValues := List (String × List String)

/-- Go `url.Values.Get`: the first value of the key, the empty string when the
key is missing or has no value. -/
def UrlValues.Get : UrlValues → String → String
  | [], _ => ""
  | (k, vs) :: rest, key =>
    if k = key then
      match vs with
      | [] => ""
      | v :: _ => v
    else UrlValues.Get rest key

/-- Go `proto.FindInstancesRequest`. -/
structure FindInstancesRequest where
  ConsumerServiceId : String := ""
  AppId : String := ""
  ServiceName : String := ""
  VersionRule : String := ""
  Environment : String := ""
  Tags : List String := []
  deriving DecidableEq, Repr

/-- Go `proto.Response`. -/
structure Response where
  Code : Int := 0
  Message : String := ""
  deriving DecidableEq, Repr

/-- Go `proto.FindInstancesResponse`; `Response` is a pointer. -/
structure FindInstancesResponse where
  Response : Option Response := none
  Instances : List MicroServiceInstance := []
  deriving DecidableEq, Repr

/-- The values held by the `interface{}` fields `CoreRequest` and `CoreRsp`:
the `nil` interface, a (possibly nil) pointer to a find request, a (possibly
nil) pointer to a find response, or a value of some other type. -/
inductive CoreValue
  | nil
  | FindInstancesRequest (p : Option FindInstancesRequest)
  | FindInstancesResponse (p : Option FindInstancesResponse)
  | other
  deriving DecidableEq, Repr

/-- The error codes of `meputil` used by the discover stages. -/
inductive ErrCode
  | SerErrFailBase
  | SerErrServiceNotFound
  | AuthorizationValidateErr
  deriving DecidableEq, Repr

/-- Modelled from the spec: the error state of `workspace.TaskBase`, which is
not among the sources: the first error code and message recorded on the
context, if any (spec §4.1). -/
structure TaskBase where
  firstError : Option (ErrCode × String) := none
  deriving DecidableEq, Repr

/-- Modelled from the spec: the method `workspace.TaskBase.SetFirstErrorCode`,
which is not among the sources.  Only the first error code and message recorded
are preserved; a later call does not overwrite them (spec §4.1). -/
def TaskBase.SetFirstErrorCode (t : TaskBase) (code : ErrCode) (msg : String) : TaskBase :=
  match t.firstError with
  | some _ => t
  | none => { t with firstError := some (code, msg) }

/-- Go `context.Context` as built by `util.SetTargetDomainProject`. -/
structure Context where
  domain : String := ""
  project : String := ""
  deriving DecidableEq, Repr

/-- Go `DiscoverService`. -/
structure DiscoverService where
  TaskBase : TaskBase := {}
  Ctx : Context := {}
  QueryParam : UrlValues := []
  CoreRequest : CoreValue := CoreValue.nil
  CoreRsp : CoreValue := CoreValue.nil
  deriving DecidableEq, Repr

/-- What the dispatch stage obtains from outside the sources at hand. -/
structure DiscoverEnv where
  /-- The function `meputil.FindInstanceByKey`: the result and whether `err != nil`. -/
  FindInstanceByKey : UrlValues → CoreValue × Bool
  /-- The method `core.InstanceAPI.Find`: the response pointer and whether `err != nil`. -/
  Find : Context → FindInstancesRequest → Option FindInstancesResponse × Bool

/-- The loop of `checkInstanceId`: whether some instance has the composite id
`ServiceId + InstanceId` equal to `instanceId`. -/
def checkInstanceIdLoop : List MicroServiceInstance → String → Bool
  | [], _ => false
  | val :: rest, instanceId =>
    if val.ServiceId ++ val.InstanceId = instanceId then true
    else checkInstanceIdLoop rest instanceId

/-- Go `DiscoverService.checkInstanceId`; `none` when a nil response pointer is
dereferenced. -/
def DiscoverService.checkInstanceId (t : DiscoverService) (req : FindInstancesRequest) :
    Option Bool :=
  let instanceId := req.AppId
  if instanceId ≠ "default" then
    match t.CoreRsp with
    | CoreValue.FindInstancesResponse (some value) =>
      some (checkInstanceIdLoop value.Instances instanceId)
    | CoreValue.FindInstancesResponse none => none
    | _ => some false
  else some true

/-- The loop of `filterAppInstanceId`: the instances whose property
`appInstanceId` equals `appInstanceId`, appended to `result` in order. -/
def filterAppInstanceIdLoop :
    List MicroServiceInstance → String → List MicroServiceInstance → List MicroServiceInstance
  | [], _, result => result
  | inst :: rest, appInstanceId, result =>
    let id := match inst.Properties with
      | none => ""
      | some properties => mapGet properties "appInstanceId"
    if id = appInstanceId then filterAppInstanceIdLoop rest appInstanceId (result ++ [inst])
    else filterAppInstanceIdLoop rest appInstanceId result

/-- Go `DiscoverService.filterAppInstanceId`; `none` when a nil response pointer
is dereferenced. -/
def DiscoverService.filterAppInstanceId (t : DiscoverService) : Option DiscoverService :=
  let appInstanceId := t.QueryParam.Get ":appInstanceId"
  if appInstanceId = "" then some t
  else
    match t.CoreRsp with
    | CoreValue.FindInstancesResponse (some value) =>
      let result := filterAppInstanceIdLoop value.Instances appInstanceId []
      some { t with
        CoreRsp := CoreValue.FindInstancesResponse (some { value with Instances := result }) }
    | CoreValue.FindInstancesResponse none => none
    | _ => some t

/-- Go `DiscoverService.OnRequest`: the stage after the call (the task code is
always `TaskFinish`); `none` when the code panics. -/
def DiscoverService.OnRequest (env : DiscoverEnv) (t : DiscoverService) :
    Option DiscoverService :=
  match t.CoreRequest with
  | CoreValue.FindInstancesRequest (some req) =>
    if req.ServiceName = "" then
      let found := env.FindInstanceByKey t.QueryParam
      let t := { t with CoreRsp := found.1 }
      if found.2 then
        some { t with TaskBase :=
          t.TaskBase.SetFirstErrorCode ErrCode.SerErrServiceNotFound "failed to find the instance" }
      else if t.CoreRsp = CoreValue.nil then
        some { t with TaskBase :=
          t.TaskBase.SetFirstErrorCode ErrCode.SerErrServiceNotFound "could not find any instance" }
      else
        match t.checkInstanceId req with
        | none => none
        | some ok =>
          let t :=
            if ¬ ok then
              { t with TaskBase :=
                t.TaskBase.SetFirstErrorCode ErrCode.SerErrServiceNotFound "instance id not found" }
            else t
          t.filterAppInstanceId
    else
      let found := env.Find t.Ctx req
      if found.2 then
        let msg := "failed to find instance request"
        some { t with TaskBase := t.TaskBase.SetFirstErrorCode ErrCode.SerErrServiceNotFound msg }
      else
        let t := { t with CoreRsp := CoreValue.FindInstancesResponse found.1 }
        t.filterAppInstanceId
  | CoreValue.FindInstancesRequest none => none
  | _ =>
    some { t with TaskBase :=
      t.TaskBase.SetFirstErrorCode ErrCode.SerErrServiceNotFound "cast to instance request failed" }

/-- A registry instance with service id `abc` and instance id `123`. -/
def instanceAbc123 : MicroServiceInstance :=
  { ServiceId := "abc", InstanceId := "123", Properties := some [("serName", "a")] }

/-- A registry instance with service id `xyz` and instance id `789`. -/
def instanceXyz789 : MicroServiceInstance :=
  { ServiceId := "xyz", InstanceId := "789", Properties := some [("serName", "x")] }

/-- A local index that answers every query with the two sample instances, and
a registry that does the same. -/
def sampleDiscoverEnv : DiscoverEnv where
  FindInstanceByKey := fun _ =>
    (CoreValue.FindInstancesResponse (some { Instances := [instanceAbc123, instanceXyz789] }),
      false)
  Find := fun _ _ => (some { Instances := [instanceAbc123, instanceXyz789] }, false)

/-- A dispatch stage holding a find request with the given application id and
service name, and no error recorded. -/
def sampleStage (appId serviceName : String) : DiscoverService :=
  { CoreRequest := CoreValue.FindInstancesRequest
      (some { AppId := appId, ServiceName := serviceName, VersionRule := "latest" }) }

/-! ## `plan_svc_discover.go`: the other stages -/

/-- An inbound `*http.Request` as far as the stages read it. -/
structure Request where
  /-- The method `r.Header.Get`. -/
  HeaderGet : String → String
  /-- The query values returned by `meputil.GetHTTPTags(r)`. -/
  query : UrlValues
  /-- The tag ids returned by `meputil.GetHTTPTags(r)`. -/
  ids : List String

/-- The values held by the `interface{}` fields `HttpRsp` and `HookRsp`: the
`nil` interface, a slice of service descriptions, or a value of another type. -/
inductive HttpRspValue
  | nil
  | serviceInfos (rspBody : List ServiceInfo)
  | other
  deriving DecidableEq, Repr

/-- What the stages after dispatch obtain from outside the sources at hand. -/
structure StageEnv where
  /-- The environment of the property codec. -/
  codec : Env
  /-- The environment of the dispatch stage. -/
  dispatch : DiscoverEnv
  /-- The constant `proto.Response_SUCCESS`. -/
  Response_SUCCESS : Int
  /-- The variable `apihook.APIHook`, `none` when no hook is installed; the
  argument is the number of calls made before. -/
  APIHook : Option (Nat → EndPointInfo)
  /-- Whether `json.Marshal` of the response value returns an error. -/
  marshalFails : HttpRspValue → Bool
  /-- The function `meputil.ValidateAppInstanceIdWithHeader`: the message of the
  error, `none` for a `nil` error. -/
  ValidateAppInstanceIdWithHeader : String → Request → Option String

/-- The loop of `Mp1CvtSrvDiscover`: every instance is decoded into a fresh
`ServiceInfo` and appended; `none` when a decode panics. -/
def Mp1CvtSrvDiscoverLoop (env : Env) :
    List MicroServiceInstance → List ServiceInfo → Option (List ServiceInfo)
  | [], serviceInfos => some serviceInfos
  | ins :: rest, serviceInfos =>
    match FromServiceInstance env {} (some ins) with
    | none => none
    | some serviceInfo => Mp1CvtSrvDiscoverLoop env rest (serviceInfos ++ [serviceInfo])

/-- Go `Mp1CvtSrvDiscover` on a non-nil response: the response object and the
instance data (the empty list for a `nil` slice); `none` when the code panics. -/
def Mp1CvtSrvDiscover (env : StageEnv) (findInsResp : FindInstancesResponse) :
    Option (Option Response × List ServiceInfo) :=
  let resp := findInsResp.Response
  match resp with
  | some response =>
    if response.Code ≠ env.Response_SUCCESS then some (resp, [])
    else
      match Mp1CvtSrvDiscoverLoop env.codec findInsResp.Instances [] with
      | none => none
      | some serviceInfos => some (resp, serviceInfos)
  | none =>
    match Mp1CvtSrvDiscoverLoop env.codec findInsResp.Instances [] with
    | none => none
    | some serviceInfos => some (resp, serviceInfos)

/-- The loop of `instanceHook` when a hook is installed: `calls` hook calls have
been made before.  The elements are pointers, so the results already rewritten
stay rewritten when the loop returns early. -/
def instanceHookLoop (hook : Nat → EndPointInfo) : List ServiceInfo → Nat → List ServiceInfo
  | [], _ => []
  | v :: rest, calls =>
    let info := hook calls
    if info.Addresses.length = 0 ∧ info.Uris.length = 0 then v :: rest
    else setEndpoint v info :: instanceHookLoop hook rest (calls + 1)

/-- Go `instanceHook`. -/
def instanceHook (env : StageEnv) (r : Request) (rspData : HttpRspValue) : HttpRspValue :=
  match rspData with
  | HttpRspValue.serviceInfos rspBody =>
    if rspBody.length = 0 then HttpRspValue.serviceInfos rspBody
    else
      let consumerName := r.HeaderGet "X-ConsumerName"
      if consumerName = "APIGW" then HttpRspValue.serviceInfos rspBody
      else
        match env.APIHook with
        | none => HttpRspValue.serviceInfos rspBody
        | some hook => HttpRspValue.serviceInfos (instanceHookLoop hook rspBody 0)
  | _ => rspData

/-- The fields shared by the stages of the discover pipeline, by the names of
their `json` tags, and the error state of the run. -/
structure DiscoverContext where
  TaskBase : TaskBase := {}
  R : Request
  Ctx : Context := {}
  QueryParam : UrlValues := []
  CoreRequest : CoreValue := CoreValue.nil
  CoreRsp : CoreValue := CoreValue.nil
  HttpErrInf : Option Response := none
  HttpRsp : HttpRspValue := HttpRspValue.nil
  HookRsp : HttpRspValue := HttpRspValue.nil

/-- Go `DiscoverDecode.OnRequest` with `DiscoverDecode.GetFindParam`. -/
def DiscoverDecode.OnRequest (env : StageEnv) (t : DiscoverContext) : Option DiscoverContext :=
  let r := t.R
  let query := r.query
  let ids := r.ids
  match env.ValidateAppInstanceIdWithHeader (query.Get ":appInstanceId") r with
  | some msg =>
    some { t with
      TaskBase := t.TaskBase.SetFirstErrorCode ErrCode.AuthorizationValidateErr msg }
  | none =>
    let req : FindInstancesRequest :=
      { ConsumerServiceId := r.HeaderGet "X-ConsumerId"
        AppId := query.Get "instance_id"
        ServiceName := query.Get "ser_name"
        VersionRule := query.Get "version"
        Environment := query.Get "env"
        Tags := ids }
    let req := if req.AppId = "" then { req with AppId := "default" } else req
    let req := if req.VersionRule = "" then { req with VersionRule := "latest" } else req
    some { t with
      Ctx := { domain := r.HeaderGet "X-Domain-Name", project := query.Get ":project" }
      CoreRequest := CoreValue.FindInstancesRequest (some req)
      QueryParam := query }

/-- Go `DiscoverService.OnRequest` on the shared fields. -/
def DiscoverService.stage (env : StageEnv) (t : DiscoverContext) : Option DiscoverContext :=
  match DiscoverService.OnRequest env.dispatch
      { TaskBase := t.TaskBase, Ctx := t.Ctx, QueryParam := t.QueryParam,
        CoreRequest := t.CoreRequest, CoreRsp := t.CoreRsp } with
  | none => none
  | some d => some { t with TaskBase := d.TaskBase, CoreRsp := d.CoreRsp }

/-- Go `ToStrDiscover.OnRequest`; `none` when a nil response pointer is
dereferenced or a decode panics. -/
def ToStrDiscover.OnRequest (env : StageEnv) (t : DiscoverContext) : Option DiscoverContext :=
  match t.CoreRsp with
  | CoreValue.FindInstancesResponse (some value) =>
    match Mp1CvtSrvDiscover env value with
    | none => none
    | some (httpErrInf, httpRsp) =>
      some { t with HttpErrInf := httpErrInf, HttpRsp := HttpRspValue.serviceInfos httpRsp }
  | CoreValue.FindInstancesResponse none => none
  | _ =>
    let msg := "cast to instance response failed"
    some { t with TaskBase := t.TaskBase.SetFirstErrorCode ErrCode.SerErrServiceNotFound msg }

/-- Go `RspHook.OnRequest`.  The hook rewrites the results through pointers, so
`HttpRsp` sees the rewritten results too. -/
def RspHook.OnRequest (env : StageEnv) (t : DiscoverContext) : Option DiscoverContext :=
  let hookRsp := instanceHook env t.R t.HttpRsp
  let t := { t with HookRsp := hookRsp, HttpRsp := hookRsp }
  if env.marshalFails t.HttpRsp then
    let msg := "http response marshal fail"
    some { t with TaskBase := t.TaskBase.SetFirstErrorCode ErrCode.SerErrFailBase msg }
  else some t

/-! ## The task pipeline -/

/-- One stage of a pipeline: its name and its `OnRequest` on the shared fields
(`none` when the stage panics). -/
structure Stage where
  name : String
  OnRequest : DiscoverContext → Option DiscoverContext

/-- Modelled from the spec: the runner of package `workspace`, which is not
among the sources, on the stages before the final one: stages run in order, and
once an error is recorded on the context all later stages are skipped (spec
§4.1).  The second component lists the names of the stages run. -/
def runStages : List Stage → DiscoverContext → List String →
    Option (DiscoverContext × List String)
  | [], t, executed => some (t, executed)
  | stage :: rest, t, executed =>
    match t.TaskBase.firstError with
    | some _ => some (t, executed)
    | none =>
      match stage.OnRequest t with
      | none => none
      | some t' => runStages rest t' (executed ++ [stage.name])

/-- Modelled from the spec: a pipeline run: the stages, then the designated
final response-encoding stage, which always runs (spec §4.1). -/
def runPipeline (stages : List Stage) (final : Stage) (t : DiscoverContext) :
    Option (DiscoverContext × List String) :=
  match runStages stages t [] with
  | none => none
  | some (t', executed) =>
    match final.OnRequest t' with
    | none => none
    | some t'' => some (t'', executed ++ [final.name])

/-- The stages of the discover pipeline before the final one (spec §4.2). -/
def discoverStages (env : StageEnv) : List Stage :=
  [⟨"DiscoverDecode", DiscoverDecode.OnRequest env⟩,
   ⟨"DiscoverService", DiscoverService.stage env⟩,
   ⟨"ToStrDiscover", ToStrDiscover.OnRequest env⟩,
   ⟨"RspHook", RspHook.OnRequest env⟩]

/-- Modelled from the spec: the final response-encoding stage, which is not
among the sources; it emits the response and leaves the shared fields alone
(spec §4.2, stage 5). -/
def sendHttpRsp : Stage := ⟨"SendHttpRsp", fun t => some t⟩

/-! ## `apigwutil.go`: TLS configuration -/

/-- Go `cipherSuiteMap`, with the identifiers of `crypto/tls`. -/
def cipherSuiteMap : List (String × Nat) :=
  [("TLS_ECDHE_RSA_WITH_AES_128_GCM_SHA256", 0xc02f),
   ("TLS_ECDHE_RSA_WITH_AES_256_GCM_SHA384", 0xc030)]

/-- Go `mapValue, ok := cipherSuiteMap[cipherName]`; `none` when `ok` is false. -/
def cipherSuiteLookup : List (String × Nat) → String → Option Nat
  | [], _ => none
  | (name, value) :: rest, cipherName =>
    if name = cipherName then some value else cipherSuiteLookup rest cipherName

/-- Go `unicode.IsSpace`. -/
def isSpace (c : Char) : Bool :=
  let n := c.toNat
  (9 ≤ n ∧ n ≤ 13) ∨ n = 32 ∨ n = 0x85 ∨ n = 0xA0 ∨ n = 0x1680 ∨ (0x2000 ≤ n ∧ n ≤ 0x200a) ∨
    n = 0x2028 ∨ n = 0x2029 ∨ n = 0x202f ∨ n = 0x205f ∨ n = 0x3000

/-- Go `strings.TrimSpace`. -/
def TrimSpace (s : String) : String :=
  ⟨((s.data.dropWhile isSpace).reverse.dropWhile isSpace).reverse⟩

/-- The loop of `getCipherSuites`; `none` for the early `return nil`. -/
def getCipherSuitesLoop : List String → List Nat → Option (List Nat)
  | [], cipherSuiteArr => some cipherSuiteArr
  | cipherName :: rest, cipherSuiteArr =>
    let cipherName := TrimSpace cipherName
    if cipherName.length = 0 then getCipherSuitesLoop rest cipherSuiteArr
    else
      match cipherSuiteLookup cipherSuiteMap cipherName with
      | none => none
      | some mapValue => getCipherSuitesLoop rest (cipherSuiteArr ++ [mapValue])

/-- Go `getCipherSuites`; `none` for a `nil` slice. -/
def getCipherSuites (sslCiphers : String) : Option (List Nat) :=
  let cipherSuiteNameList := Split sslCiphers ','
  match getCipherSuitesLoop cipherSuiteNameList [] with
  | none => none
  | some cipherSuiteArr => if cipherSuiteArr.length > 0 then some cipherSuiteArr else none

/-- What `TLSConfig` obtains from outside the sources at hand. -/
structure TlsEnv where
  /-- Result of `GetAppConfig()`: the configuration, read as `appConfig[key]`,
  and the message of the error (`none` for a `nil` error). -/
  GetAppConfig : (String → String) × Option String
  /-- Go `ioutil.ReadFile`: the content and the message of the error. -/
  ReadFile : String → String × Option String
  /-- Whether `rootCAs.AppendCertsFromPEM(crt)` returns `ok`. -/
  AppendCertsFromPEM : String → Bool
  /-- The constant `maxHostNameLen`. -/
  maxHostNameLen : Nat
  /-- Go `regexp.MatchString(ServerNameRegex, serverName)`: the match and the
  message of the error. -/
  MatchServerName : String → Bool × Option String

/-- Fields of the `tls.Config` built by `TLSConfig`; the certificate pool is
identified with the PEM text it was filled from. -/
structure TlsConfig where
  RootCAs : String
  ServerName : String
  MinVersion : Nat
  CipherSuites : List Nat
  deriving DecidableEq, Repr

/-- Go `ValidateServerName`: the verdict and the message of the error. -/
def ValidateServerName (env : TlsEnv) (serverName : String) : Bool × Option String :=
  if serverName.utf8ByteSize > env.maxHostNameLen then
    (false, some "server or host name validation failed")
  else env.MatchServerName serverName

/-- Go `TLSConfig`: the configuration (`none` for `nil`) and the message of the
error (`none` for a `nil` error). -/
def TLSConfig (env : TlsEnv) (crtName : String) : Option TlsConfig × Option String :=
  let appConfig := env.GetAppConfig.1
  match env.GetAppConfig.2 with
  | some err => (none, some err)
  | none =>
    let certNameConfig := appConfig crtName
    if certNameConfig.utf8ByteSize = 0 then (none, some "cert name configuration is not set")
    else
      let crt := (env.ReadFile certNameConfig).1
      match (env.ReadFile certNameConfig).2 with
      | some err => (none, some err)
      | none =>
        let ok := env.AppendCertsFromPEM crt
        if ¬ ok then (none, some "failed to decode cert file")
        else
          let serverName := appConfig "server_name"
          let serverNameIsValid := (ValidateServerName env serverName).1
          let validateServerNameErr := (ValidateServerName env serverName).2
          if validateServerNameErr ≠ none ∨ ¬ serverNameIsValid then (none, validateServerNameErr)
          else
            let sslCiphers := appConfig "ssl_ciphers"
            if sslCiphers.utf8ByteSize = 0 then
              (none, some "TLS cipher configuration is not recommended or invalid")
            else
              match getCipherSuites sslCiphers with
              | none => (none, some "TLS cipher configuration is not recommended or invalid")
              | some cipherSuites =>
                (some { RootCAs := crt, ServerName := serverName, MinVersion := 0x0303,
                        CipherSuites := cipherSuites }, none)

/-! ## Further sample inputs -/

/-- Go `instance.Properties[key]`; a `nil` map reads as the empty string. -/
def instanceProperty (inst : MicroServiceInstance) (key : String) : String :=
  match inst.Properties with
  | none => ""
  | some properties => mapGet properties key

/-- A registry instance of the application instance `app-1`. -/
def instanceApp1 : MicroServiceInstance :=
  { ServiceId := "s1", InstanceId := "i1", Properties := some [("appInstanceId", "app-1")] }

/-- A registry instance of the application instance `app-2`. -/
def instanceApp2 : MicroServiceInstance :=
  { ServiceId := "s2", InstanceId := "i2", Properties := some [("appInstanceId", "app-2")] }

/-- A dispatch stage that holds three results and the query value `app-1`. -/
def filterStage : DiscoverService :=
  { QueryParam := [(":appInstanceId", ["app-1"])],
    CoreRsp := CoreValue.FindInstancesResponse
      (some { Instances := [instanceApp1, instanceApp2, instanceApp1] }) }

/-- A registry instance of endpoint kind `alternative` without endpoint string. -/
def brokenInstance : MicroServiceInstance :=
  { ServiceId := "s", InstanceId := "i", Endpoints := [],
    Properties := some [("endPointType", "alternative"), ("serName", "svc")] }

/-- A registry instance of endpoint kind `alternative` with one endpoint string. -/
def alternativeInstance : MicroServiceInstance :=
  { ServiceId := "s", InstanceId := "i", Endpoints := ["json7"],
    Properties := some [("endPointType", "alternative"), ("serName", "svc")] }

/-- A valid service description with two OAuth2 grant types. -/
def twoGrantService : ServiceInfo :=
  { uriService with
    TransportInfo := { uriService.TransportInfo with
      Security := { OAuth2Info :=
        { GrantTypes := ["OAUTH2_AUTHORIZATION_CODE", "OAUTH2_CLIENT_CREDENTIALS"],
          TokenEndpoint := "/token" } } } }

/-- A request without headers or query values. -/
def sampleRequest : Request :=
  { HeaderGet := fun _ => "", query := [], ids := [] }

/-- A sample environment of the stages: success code 0, a hook that always
reports the URI `http://hook/`, and a header check that rejects every request. -/
def sampleStageEnv : StageEnv where
  codec := sampleEnv
  dispatch := sampleDiscoverEnv
  Response_SUCCESS := 0
  APIHook := some fun _ => { Uris := ["http://hook/"] }
  marshalFails := fun _ => true
  ValidateAppInstanceIdWithHeader := fun _ _ => some "app Instance ID validation failed"

/-- A configuration with a readable certificate, a server name that the
pattern rejects, and no cipher suite. -/
def sampleTlsEnv : TlsEnv where
  GetAppConfig :=
    (fun key =>
      if key = "apigw_cacert" then "/usr/mep/ssl/ca.crt"
      else if key = "server_name" then "not a host name"
      else "", none)
  ReadFile := fun _ => ("-----BEGIN CERTIFICATE-----", none)
  AppendCertsFromPEM := fun _ => true
  maxHostNameLen := 253
  MatchServerName := fun _ => (false, none)

/-- The shared fields at the start of a run on the sample request. -/
def sampleContext : DiscoverContext := { R := sampleRequest }

/-! ## Basic lemmas -/

theorem mapGet_mapSet (m : Properties) (k v k' : String) :
    mapGet (mapSet m k v) k' = if k = k' then v else mapGet m k' := by
  simp [mapSet, mapGet]

theorem mapGet_InfoToProperties (env : Env) (m : Properties) (k v k' : String) :
    mapGet (meputil.InfoToProperties env m k v) k'
      = if k = k' then (if v = "" ∧ env.storeEmpty = false then mapGet m k' else v)
        else mapGet m k' := by
  unfold meputil.InfoToProperties
  by_cases h : v = "" ∧ env.storeEmpty = false
  · by_cases hk : k = k' <;> simp [h, hk]
  · simp only [h, if_false, mapGet_mapSet]

theorem mapGet_nil (k : String) : mapGet [] k = "" := rfl

theorem ite_empty_self (v : String) (p : Prop) [Decidable p] :
    (if v = "" ∧ p then "" else v) = v := by
  by_cases h : v = "" ∧ p
  · simp [h.1]
  · simp [h]

theorem slice_zero (s : String) (k : Nat) (h : k ≤ s.length) :
    slice s 0 k = some ⟨s.data.take k⟩ := by
  simp [slice, h]

theorem slice_end (s : String) (k : Nat) (h : k ≤ s.length) :
    slice s k s.length = some ⟨s.data.drop k⟩ := by
  have h2 : s.data.take s.length = s.data := List.take_of_length_le (Nat.le_refl _)
  simp only [slice, h, Nat.le_refl, and_self, if_true, h2]

/-! ## Lemmas on `strconv` -/

theorem digitVal_digitChar (d : Nat) (h : d < 10) : digitVal (Nat.digitChar d) = some d := by
  interval_cases d <;> rfl

theorem digitChar_ne_sign (d : Nat) (h : d < 10) :
    Nat.digitChar d ≠ '-' ∧ Nat.digitChar d ≠ '+' := by
  interval_cases d <;> decide

theorem decimalDigits_fuel (n : Nat) : ∀ f1 f2 : Nat, n < f1 → n < f2 →
    decimalDigits f1 n = decimalDigits f2 n := by
  induction n using Nat.strong_induction_on with
  | _ n ih =>
    intro f1 f2 h1 h2
    obtain ⟨g1, rfl⟩ : ∃ g, f1 = g + 1 := ⟨f1 - 1, by omega⟩
    obtain ⟨g2, rfl⟩ : ∃ g, f2 = g + 1 := ⟨f2 - 1, by omega⟩
    simp only [decimalDigits]
    by_cases hn : n < 10
    · simp [hn]
    · simp only [hn, if_false]
      rw [ih (n / 10) (by omega) g1 g2 (by omega) (by omega)]

theorem decimalDigits_step (n : Nat) :
    decimalDigits (n + 1) n =
      if n < 10 then [Nat.digitChar n]
      else decimalDigits (n / 10 + 1) (n / 10) ++ [Nat.digitChar (n % 10)] := by
  conv_lhs => rw [decimalDigits]
  by_cases hn : n < 10
  · simp [hn]
  · simp only [hn, if_false]
    rw [decimalDigits_fuel (n / 10) n (n / 10 + 1) (by omega) (by omega)]

theorem decimalDigits_cons (n : Nat) :
    ∃ d cs, d < 10 ∧ decimalDigits (n + 1) n = Nat.digitChar d :: cs := by
  induction n using Nat.strong_induction_on with
  | _ n ih =>
    rw [decimalDigits_step]
    by_cases hn : n < 10
    · exact ⟨n, [], hn, by simp [hn]⟩
    · obtain ⟨d, cs, hd, hcs⟩ := ih (n / 10) (by omega)
      exact ⟨d, cs ++ [Nat.digitChar (n % 10)], hd, by simp [hn, hcs]⟩

/-- The `ParseUint` loop run over the digits of `m` reaches `m` without overflow. -/
theorem parseUintLoop_decimalDigits (m : Nat) : ∀ rest : List Char, m < 2 ^ 64 →
    parseUintLoop (decimalDigits (m + 1) m ++ rest) 0 = parseUintLoop rest m := by
  induction m using Nat.strong_induction_on with
  | _ m ih =>
    intro rest hm
    rw [decimalDigits_step]
    by_cases hn : m < 10
    · simp only [hn, if_true, List.singleton_append, parseUintLoop, digitVal_digitChar m hn]
      norm_num
      have : m % 18446744073709551616 = m := Nat.mod_eq_of_lt (by omega)
      simp [this]
      intro h; omega
    · simp only [hn, if_false, List.append_assoc, List.singleton_append]
      rw [ih (m / 10) (by omega) _ (by omega)]
      simp only [parseUintLoop, digitVal_digitChar (m % 10) (by omega)]
      norm_num at hm ⊢
      have h1 : ¬ (1844674407370955162 ≤ m / 10) := by omega
      have h2 : m / 10 * 10 % 18446744073709551616 = m / 10 * 10 := Nat.mod_eq_of_lt (by omega)
      have h3 : (m / 10 * 10 + m % 10) = m := by omega
      have h4 : m % 18446744073709551616 = m := Nat.mod_eq_of_lt (by omega)
      simp [h1, h2, h3, h4]
      intro h; omega

/-- The fast loop of `Atoi` run over the digits of `m` reaches `m`. -/
theorem atoiFastLoop_decimalDigits (m : Nat) : ∀ rest : List Char,
    atoiFastLoop (decimalDigits (m + 1) m ++ rest) 0 = atoiFastLoop rest m := by
  induction m using Nat.strong_induction_on with
  | _ m ih =>
    intro rest
    rw [decimalDigits_step]
    by_cases hn : m < 10
    · simp [hn, atoiFastLoop, digitVal_digitChar m hn]
    · simp only [hn, if_false, List.append_assoc, List.singleton_append]
      rw [ih (m / 10) (by omega) _]
      simp only [atoiFastLoop, digitVal_digitChar (m % 10) (by omega)]
      congr 1
      push_cast
      omega


theorem decimalDigits_ne_nil (n : Nat) : decimalDigits (n + 1) n ≠ [] := by
  obtain ⟨d, cs, _, h⟩ := decimalDigits_cons n
  simp [h]

theorem ParseInt_neg (m : Nat) (h : m ≤ 2 ^ 63) :
    ParseInt ('-' :: decimalDigits (m + 1) m) = (-(m : Int), none) := by
  have hslow := parseUintLoop_decimalDigits m [] (by norm_num at h ⊢; omega)
  rw [List.append_nil] at hslow
  have hm : ¬ (9223372036854775808 < m) := by norm_num at h; omega
  simp [ParseInt, ParseUint, decimalDigits_ne_nil, hslow, parseUintLoop, hm, toInt64]
  norm_num at h
  omega

theorem ParseInt_pos (m : Nat) (h : m < 2 ^ 63) :
    ParseInt (decimalDigits (m + 1) m) = ((m : Int), none) := by
  have hslow := parseUintLoop_decimalDigits m [] (by norm_num at h ⊢; omega)
  rw [List.append_nil] at hslow
  obtain ⟨d, cs, hd, hcs⟩ := decimalDigits_cons m
  have hsign := digitChar_ne_sign d hd
  have hm : ¬ (9223372036854775808 ≤ m) := by norm_num at h; omega
  rw [hcs] at hslow
  simp only [hcs, ParseInt, ParseUint, hsign.1, hsign.2, or_self, if_false, hslow]
  simp [parseUintLoop, hm, toInt64]
  norm_num at h
  omega

/-- `Atoi` reads back what `Itoa` writes, for every 64-bit integer. -/
theorem Atoi_Itoa (i : Int) (hlo : -(2 ^ 63) ≤ i) (hhi : i < 2 ^ 63) :
    Atoi (Itoa i) = (i, none) := by
  obtain ⟨d, cs, hd, hcs⟩ := decimalDigits_cons i.natAbs
  have hfast := atoiFastLoop_decimalDigits i.natAbs []
  rw [List.append_nil] at hfast
  have hsign := digitChar_ne_sign d hd
  by_cases hneg : i < 0
  · have hdata : (Itoa i).data = '-' :: decimalDigits (i.natAbs + 1) i.natAbs := by
      simp [Itoa, FormatInt, hneg]
    have hi : -(i.natAbs : Int) = i := by omega
    unfold Atoi
    simp only [hdata]
    split
    · simp only [true_or, if_true, hfast, atoiFastLoop]
      simp only [hcs, List.length_cons, Nat.lt_one_iff, Nat.add_one_ne_zero, and_false,
        if_false, hi]
    · rw [ParseInt_neg i.natAbs (by norm_num at hlo ⊢; omega), hi]
  · have hdata : (Itoa i).data = decimalDigits (i.natAbs + 1) i.natAbs := by
      have : i.toNat = i.natAbs := by omega
      simp [Itoa, FormatInt, hneg, FormatUint, this]
    have hi : (i.natAbs : Int) = i := by omega
    unfold Atoi
    simp only [hdata]
    split
    · rw [hcs] at hfast
      simp only [hcs, hsign.1, hsign.2, or_self, if_false, false_and, hfast, atoiFastLoop]
      simp only [hi]
    · rw [ParseInt_pos i.natAbs (by norm_num at hhi ⊢; omega), hi]

theorem ParseBool_FormatBool (b : Bool) : ParseBool (FormatBool b) = (b, false) := by
  cases b <;> decide

theorem Itoa_ne_empty (i : Int) : Itoa i ≠ "" := by
  intro h
  have hd : (Itoa i).data = [] := by rw [h]
  unfold Itoa FormatInt at hd
  split at hd
  · simp at hd
  · exact decimalDigits_ne_nil _ hd

theorem FormatInt_length_pos (i : Int) : 1 ≤ (FormatInt i).length := by
  have h := Itoa_ne_empty i
  unfold Itoa at h
  rcases hd : (FormatInt i) with ⟨l⟩
  cases l with
  | nil => exact absurd hd h
  | cons c cs => simp [String.length]

/-! ## Endpoint resolution -/

/-- C4 (endpoint priority): when both the URI list and the address list are
non-empty, `toEndpoints` returns exactly the URI list with kind `"uris"` and
makes no gateway call. -/
theorem toEndpoints_uris_win (env : Env) (s : ServiceInfo)
    (hU : s.TransportInfo.Endpoint.Uris ≠ [])
    (_hA : s.TransportInfo.Endpoint.Addresses ≠ []) :
    toEndpoints env s = some (s.TransportInfo.Endpoint.Uris, "uris", []) := by
  have h : s.TransportInfo.Endpoint.Uris.length ≠ 0 := by
    simpa [List.length_eq_zero] using hU
  simp [toEndpoints, h, meputil.Uris]

/-- Witness of C4 on a description with one URI and one address. -/
theorem toEndpoints_uris_win_witness :
    uriService.TransportInfo.Endpoint.Uris ≠ [] ∧
    uriService.TransportInfo.Endpoint.Addresses ≠ [] ∧
    toEndpoints sampleEnv uriService = some (["http://a/"], "uris", []) :=
  ⟨by decide, by decide, toEndpoints_uris_win sampleEnv uriService (by decide) (by decide)⟩

/-- C5 (address endpoint resolution): with no URI and a non-empty address list,
and an identifier of at least 20 characters, `toEndpoints` returns the single URI
`https://mep-api-gw.mep:8443/` + `SerName` + suffix with kind `"uris"`, where the
suffix is the first 20 characters of the identifier, and makes exactly the calls
`AddApigwService`, `AddApigwRoute`, `EnableJwtPlugin`, in that order, each for
the service name `SerName` + suffix and the URL `http://host:port/` of the first
address. -/
theorem toEndpoints_addresses (env : Env) (s : ServiceInfo)
    (address : EndPointInfoAddress) (others : List EndPointInfoAddress)
    (hU : s.TransportInfo.Endpoint.Uris = [])
    (hA : s.TransportInfo.Endpoint.Addresses = address :: others)
    (hu : 20 ≤ env.uuid.length) :
    ∃ suffix : String,
      suffix = ⟨env.uuid.data.take 20⟩ ∧ suffix.length = 20 ∧
      ∃ routeInfo : RouteInfo,
        routeInfo =
          { Id := 1, AppId := suffix,
            SerInfo :=
              { SerName := s.SerName ++ suffix,
                Uris := ["http://" ++ address.Host ++ ":" ++ FormatUint address.Port ++ "/"] } } ∧
        toEndpoints env s =
          some (["https://mep-api-gw.mep:8443/" ++ s.SerName ++ suffix], "uris",
            [GwCall.AddApigwService routeInfo
               ⟨"https://" ++ env.appConfig "apigw_host" ++ ":" ++ env.appConfig "apigw_port"
                  ++ "/services",
                "\x7b \"url\": \"" ++ ("http://" ++ address.Host ++ ":"
                  ++ FormatUint address.Port ++ "/") ++ "\", \"name\": \""
                  ++ (s.SerName ++ suffix) ++ "\" \x7d"⟩,
             GwCall.AddApigwRoute routeInfo
               ⟨"https://" ++ env.appConfig "apigw_host" ++ ":" ++ env.appConfig "apigw_port"
                  ++ "/services/" ++ (s.SerName ++ suffix) ++ "/routes",
                "\x7b \"paths\": [\"/" ++ (s.SerName ++ suffix) ++ "\"], \"name\": \""
                  ++ (s.SerName ++ suffix) ++ "\" \x7d"⟩,
             GwCall.EnableJwtPlugin routeInfo]) := by
  have hlen : (⟨env.uuid.data.take 20⟩ : String).length = 20 := by
    have hu2 : 20 ≤ env.uuid.data.length := hu
    show (env.uuid.data.take 20).length = 20
    rw [List.length_take]
    omega
  refine ⟨_, rfl, hlen, _, rfl, ?_⟩
  simp [toEndpoints, hU, hA, slice_zero env.uuid 20 hu, registerToApigw, AddApigwService,
    AddApigwRoute, meputil.Uris, String.append_assoc]

/-- Witness of C5: one address `10.0.0.5:8080`, service name `svc`. -/
theorem toEndpoints_addresses_witness :
    addressService.TransportInfo.Endpoint.Uris = [] ∧
    addressService.TransportInfo.Endpoint.Addresses = [{ Host := "10.0.0.5", Port := 8080 }] ∧
    20 ≤ sampleEnv.uuid.length ∧
    ∃ suffix : String,
      suffix = ⟨sampleEnv.uuid.data.take 20⟩ ∧ suffix.length = 20 ∧
      ∃ routeInfo : RouteInfo,
        routeInfo =
          { Id := 1, AppId := suffix,
            SerInfo :=
              { SerName := addressService.SerName ++ suffix,
                Uris := ["http://" ++ "10.0.0.5" ++ ":" ++ FormatUint 8080 ++ "/"] } } ∧
        toEndpoints sampleEnv addressService =
          some (["https://mep-api-gw.mep:8443/" ++ addressService.SerName ++ suffix], "uris",
            [GwCall.AddApigwService routeInfo
               ⟨"https://" ++ sampleEnv.appConfig "apigw_host" ++ ":"
                  ++ sampleEnv.appConfig "apigw_port" ++ "/services",
                "\x7b \"url\": \"" ++ ("http://" ++ "10.0.0.5" ++ ":"
                  ++ FormatUint 8080 ++ "/") ++ "\", \"name\": \""
                  ++ (addressService.SerName ++ suffix) ++ "\" \x7d"⟩,
             GwCall.AddApigwRoute routeInfo
               ⟨"https://" ++ sampleEnv.appConfig "apigw_host" ++ ":"
                  ++ sampleEnv.appConfig "apigw_port"
                  ++ "/services/" ++ (addressService.SerName ++ suffix) ++ "/routes",
                "\x7b \"paths\": [\"/" ++ (addressService.SerName ++ suffix) ++ "\"], \"name\": \""
                  ++ (addressService.SerName ++ suffix) ++ "\" \x7d"⟩,
             GwCall.EnableJwtPlugin routeInfo]) :=
  ⟨rfl, rfl, by decide,
    toEndpoints_addresses sampleEnv addressService { Host := "10.0.0.5", Port := 8080 } []
      rfl rfl (by decide)⟩

/-- C6 (remaining endpoint shapes): with no URI and no address, `toEndpoints`
returns the one-element list holding the JSON text of the alternative with kind
`"alternative"` when the alternative is present and `json.Marshal` succeeds, and
the empty list with the empty kind when the alternative is absent; no gateway
call is made in either case. -/
theorem toEndpoints_remaining (env : Env) (s : ServiceInfo)
    (hU : s.TransportInfo.Endpoint.Uris = [])
    (hA : s.TransportInfo.Endpoint.Addresses = []) :
    (∀ (alternative : GoValue) (jsonText : String),
        s.TransportInfo.Endpoint.Alternative = some alternative →
        env.jsonMarshal alternative = some jsonText →
        toEndpoints env s = some ([jsonText], "alternative", [])) ∧
    (s.TransportInfo.Endpoint.Alternative = none → toEndpoints env s = some ([], "", [])) := by
  constructor
  · intro alternative jsonText halt hjson
    simp [toEndpoints, hU, hA, halt, hjson]
  · intro halt
    simp [toEndpoints, hU, hA, halt]

/-- Witness of C6: an alternative whose JSON text is `json7`, and the zero
description, which has no endpoint at all. -/
theorem toEndpoints_remaining_witness :
    alternativeService.TransportInfo.Endpoint.Uris = [] ∧
    alternativeService.TransportInfo.Endpoint.Addresses = [] ∧
    toEndpoints sampleEnv alternativeService = some (["json7"], "alternative", []) :=
  ⟨rfl, rfl,
    (toEndpoints_remaining sampleEnv alternativeService rfl rfl).1 ⟨7⟩ "json7" rfl (by decide)⟩

/-! ## Encoding -/

theorem toEndpoints_liveness (env : Env) (s : ServiceInfo) (d : Int) :
    toEndpoints env { s with LivenessInterval := d } = toEndpoints env s := rfl

theorem override_ite_eq (s : ServiceInfo) (d : Int) :
    (if s.LivenessInterval ≠ 0 then { s with LivenessInterval := d } else s)
      = { s with LivenessInterval := if s.LivenessInterval ≠ 0 then d else s.LivenessInterval } := by
  split <;> rfl

theorem mapGet_ite (c : Prop) [Decidable c] (a b : Properties) (k : String) :
    mapGet (if c then a else b) k = if c then mapGet a k else mapGet b k := by
  split <;> rfl

theorem toEndpoints_total (env : Env) (s : ServiceInfo) (hu : 20 ≤ env.uuid.length) :
    ∃ eps kind calls, toEndpoints env s = some (eps, kind, calls) := by
  unfold toEndpoints
  split
  · exact ⟨_, _, _, rfl⟩
  · split
    · rename_i h1 h2
      rw [slice_zero env.uuid 20 hu]
      cases hA : s.TransportInfo.Endpoint.Addresses with
      | nil => simp [hA] at h2
      | cons a as => simp [registerToApigw, hA, AddApigwService]
    · split
      · split <;> exact ⟨_, _, _, rfl⟩
      · exact ⟨_, _, _, rfl⟩

/-- On a non-nil request `ToRegisterInstance` completes, and the state it leaves
is described by `EncodeFacts`. -/
theorem ToRegisterInstance_facts (env : Env) (s : ServiceInfo) (req : RegisterInstanceRequest)
    (hu : 20 ≤ env.uuid.length) :
    ∃ r inst props eps kind,
      ToRegisterInstance env s (some req) = some r ∧
      r.req = some { req with Instance := some inst } ∧
      inst.Properties = some props ∧ EncodeFacts env s r inst props eps kind := by
  obtain ⟨eps, kind, calls, hte⟩ := toEndpoints_total env s hu
  have hlen := FormatInt_length_pos env.nowUnixNano
  have hk : (FormatInt env.nowUnixNano).length / 2 + 1 ≤ (FormatInt env.nowUnixNano).length := by
    omega
  have hne := Itoa_ne_empty env.DefaultHeartbeatInterval
  have hz : Itoa 0 = "0" := by decide
  simp only [ToRegisterInstance, slice_zero _ _ hk, slice_end _ _ hk, override_ite_eq,
    toEndpoints_liveness, hte]
  refine ⟨_, _, _, eps, kind, rfl, rfl, rfl, ?_⟩
  constructor
  case hversion => split <;> rfl
  case hstatus => split <;> rfl
  all_goals
    simp [hte, hne, transportInfoToProperties, serCategoryToProperties,
      mapGet_InfoToProperties, mapGet_mapSet, mapGet_nil, mapGet_ite, ite_empty_self, hz]


/-! ## Decoding -/

/-- A completed `fromEndpoints` changes the endpoint only, and in a way that depends
on the receiver through its endpoint only. -/
theorem fromEndpoints_some (env : Env) (s s1 : ServiceInfo) (uris : List String) (k : String)
    (h : fromEndpoints env s uris k = some s1) :
    s1 = setEndpoint s s1.TransportInfo.Endpoint ∧
    ∀ t : ServiceInfo, t.TransportInfo.Endpoint = s.TransportInfo.Endpoint →
      fromEndpoints env t uris k = some (setEndpoint t s1.TransportInfo.Endpoint) := by
  unfold fromEndpoints at h
  by_cases h1 : k = "uris"
  · simp only [h1, if_true] at h
    cases h
    refine ⟨rfl, fun t ht => ?_⟩
    simp [fromEndpoints, h1, setEndpoint, ht]
  · simp only [h1, if_false] at h
    by_cases h2 : k = "alternative"
    · have h3 : ¬ (k = "addresses") := by rw [h2]; decide
      simp only [h2, h3, if_true, if_false] at h
      cases uris with
      | nil => cases h
      | cons u us =>
        simp only at h
        by_cases h4 : (env.JsonTextToObj u).2 = true
        · simp only [h4, if_true] at h
          cases h
          refine ⟨rfl, fun t ht => ?_⟩
          simp [fromEndpoints, h2, h4, setEndpoint, ht]
        · simp only [h4, if_false] at h
          cases h
          refine ⟨rfl, fun t ht => ?_⟩
          simp [fromEndpoints, h2, h4, setEndpoint, ht]
          rw [← ht]
    · simp only [h2, if_false] at h
      by_cases h5 : k = "addresses"
      · simp only [h5, if_true] at h
        cases h
        refine ⟨rfl, fun t ht => ?_⟩
        simp [fromEndpoints, h5, setEndpoint, ht]
      · simp only [h5, if_false] at h
        cases h
        refine ⟨rfl, fun t ht => ?_⟩
        simp [fromEndpoints, h1, h2, h5, setEndpoint, ht]
        rw [← ht]

theorem fromEndpoints_total (env : Env) (s : ServiceInfo) (uris : List String) (k : String)
    (h : k ≠ "alternative" ∨ uris ≠ []) :
    ∃ s1, fromEndpoints env s uris k = some s1 := by
  unfold fromEndpoints
  by_cases h1 : k = "uris"
  · simp only [h1, if_true]
    exact ⟨_, rfl⟩
  · simp only [h1, if_false]
    by_cases h2 : k = "alternative"
    · cases uris with
      | nil => simp [h2] at h
      | cons u us =>
        simp only [h2, if_true]
        split <;> exact ⟨_, rfl⟩
    · simp only [h2, if_false]
      exact ⟨_, rfl⟩


/-- A completed `FromServiceInstance` leaves the state described by `DecodeFacts`. -/
theorem FromServiceInstance_facts (env : Env) (s0 s' : ServiceInfo) (inst : MicroServiceInstance)
    (props : Properties) (hp : inst.Properties = some props)
    (h : FromServiceInstance env s0 (some inst) = some s') :
    ∃ s1, fromEndpoints env s0 inst.Endpoints (mapGet props "endPointType") = some s1 ∧
      DecodeFacts inst props s0 s1 s' := by
  simp only [FromServiceInstance, hp] at h
  split at h
  · cases h
  · rename_i sx hsx
    cases h
    obtain ⟨hframe, hcongr⟩ := fromEndpoints_some env _ _ _ _ hsx
    refine ⟨_, hcongr s0 ?_, ?_⟩
    · split <;> rfl
    · rw [hframe]
      by_cases hA : (Atoi (mapGet props "livenessInterval")).1 = 0
      · constructor <;>
          simp [transportInfoFromProperties, setEndpoint, serCategoryFromProperties, hA]
      · constructor <;>
          simp [transportInfoFromProperties, setEndpoint, serCategoryFromProperties, hA]

/-- `FromServiceInstance` completes unless the endpoint kind is `"alternative"` and
there is no endpoint string. -/
theorem FromServiceInstance_total (env : Env) (s0 : ServiceInfo) (inst : MicroServiceInstance)
    (props : Properties) (hp : inst.Properties = some props)
    (hsafe : mapGet props "endPointType" ≠ "alternative" ∨ inst.Endpoints ≠ []) :
    ∃ s', FromServiceInstance env s0 (some inst) = some s' := by
  simp only [FromServiceInstance, hp]
  split
  · rename_i hnone
    obtain ⟨s1, hs1⟩ := fromEndpoints_total env _ inst.Endpoints _ hsafe
    rw [hs1] at hnone
    cases hnone
  · exact ⟨_, rfl⟩


/-! ## Encoding followed by decoding -/

theorem toEndpoints_alternative_nonempty (env : Env) (s : ServiceInfo) (eps : List String)
    (kind : String) (calls : List GwCall) (h : toEndpoints env s = some (eps, kind, calls))
    (hk : kind = "alternative") : eps ≠ [] := by
  unfold toEndpoints at h
  split at h
  · simp only [Option.some.injEq, Prod.mk.injEq] at h
    rw [← h.2.1] at hk
    exact absurd hk (by decide)
  · split at h
    · split at h
      · cases h
      · split at h
        · cases h
        · simp only [Option.some.injEq, Prod.mk.injEq] at h
          rw [← h.2.1] at hk
          exact absurd hk (by decide)
    · split at h
      · split at h
        · simp only [Option.some.injEq, Prod.mk.injEq] at h
          rw [← h.2.1] at hk
          exact absurd hk (by decide)
        · simp only [Option.some.injEq, Prod.mk.injEq] at h
          rw [← h.1]
          simp
      · simp only [Option.some.injEq, Prod.mk.injEq] at h
        rw [← h.2.1] at hk
        exact absurd hk (by decide)

/-- Encoding followed by decoding completes; the facts of both halves. -/
theorem roundTrip_facts (env : Env) (s : ServiceInfo) (req : RegisterInstanceRequest)
    (hu : 20 ≤ env.uuid.length) :
    ∃ r inst props eps kind s1 s',
      ToRegisterInstance env s (some req) = some r ∧
      r.req = some { req with Instance := some inst } ∧
      inst.Properties = some props ∧
      EncodeFacts env s r inst props eps kind ∧
      roundTrip env s req = some s' ∧
      fromEndpoints env {} eps kind = some s1 ∧
      DecodeFacts inst props {} s1 s' := by
  obtain ⟨r, inst, props, eps, kind, hr, hreq, hprops, he⟩ := ToRegisterInstance_facts env s req hu
  have hsafe : mapGet props "endPointType" ≠ "alternative" ∨ inst.Endpoints ≠ [] := by
    rw [he.endPointType, he.heps]
    by_cases hk : kind = "alternative"
    · exact Or.inr (toEndpoints_alternative_nonempty env s eps kind r.calls he.hte hk)
    · exact Or.inl hk
  obtain ⟨s', hs'⟩ := FromServiceInstance_total env {} inst props hprops hsafe
  obtain ⟨s1, hs1, hd⟩ := FromServiceInstance_facts env {} s' inst props hprops hs'
  rw [he.endPointType, he.heps] at hs1
  refine ⟨r, inst, props, eps, kind, s1, s', hr, hreq, hprops, he, ?_, hs1, hd⟩
  simp only [roundTrip, hr, hreq, hs']


/-- C2 (state symmetry): for a description whose state is `ACTIVE` or
`INACTIVE`, encoding with `ToRegisterInstance` and decoding the resulting
instance with `FromServiceInstance` completes and reproduces the state. -/
theorem state_symmetry (env : Env) (s : ServiceInfo) (req : RegisterInstanceRequest)
    (hu : 20 ≤ env.uuid.length) (_hs : s.State = "ACTIVE" ∨ s.State = "INACTIVE") :
    ∃ r inst s',
      ToRegisterInstance env s (some req) = some r ∧
      r.req = some { req with Instance := some inst } ∧
      FromServiceInstance env {} (some inst) = some s' ∧
      s'.State = s.State := by
  obtain ⟨r, inst, props, eps, kind, s1, s', hr, hreq, hprops, he, hrt, hs1, hd⟩ :=
    roundTrip_facts env s req hu
  refine ⟨r, inst, s', hr, hreq, ?_, ?_⟩
  · simpa only [roundTrip, hr, hreq] using hrt
  · rw [hd.state, he.mecState]

/-- Witness of C2 on an `INACTIVE` description. -/
theorem state_symmetry_witness :
    20 ≤ sampleEnv.uuid.length ∧ (uriService.State = "ACTIVE" ∨ uriService.State = "INACTIVE") ∧
    ∃ r inst s',
      ToRegisterInstance sampleEnv uriService (some {}) = some r ∧
      r.req = some { ({} : RegisterInstanceRequest) with Instance := some inst } ∧
      FromServiceInstance sampleEnv {} (some inst) = some s' ∧
      s'.State = uriService.State :=
  ⟨by decide, Or.inr rfl, state_symmetry sampleEnv uriService {} (by decide) (Or.inr rfl)⟩

/-- C3 (registry status mapping): on a non-nil request, `ToServiceRequest` and
`ToRegisterInstance` both set the status to `"UP"` for state `ACTIVE` and to
`"DOWN"` for state `INACTIVE`, and these two status strings differ. -/
theorem status_mapping (env : Env) (s : ServiceInfo) (creq : CreateServiceRequest)
    (rreq : RegisterInstanceRequest) (hu : 20 ≤ env.uuid.length) :
    (∃ service,
      ToServiceRequest s (some creq) = some { creq with Service := some service } ∧
      (s.State = "ACTIVE" → service.Status = "UP") ∧
      (s.State = "INACTIVE" → service.Status = "DOWN")) ∧
    (∃ r inst,
      ToRegisterInstance env s (some rreq) = some r ∧
      r.req = some { rreq with Instance := some inst } ∧
      (s.State = "ACTIVE" → inst.Status = "UP") ∧
      (s.State = "INACTIVE" → inst.Status = "DOWN")) ∧
    ("UP" : String) ≠ "DOWN" := by
  refine ⟨?_, ?_, by decide⟩
  · by_cases hst : s.State = meputil.InactiveState
    · refine ⟨{ AppId := "", ServiceName := s.SerName, Version := s.Version, Status := "DOWN" },
        by simp only [ToServiceRequest, hst, if_true], ?_, ?_⟩
      · intro ha
        rw [ha] at hst
        exact absurd hst (by decide)
      · intro _
        rfl
    · refine ⟨{ AppId := "", ServiceName := s.SerName, Version := s.Version, Status := "UP" },
        by simp only [ToServiceRequest, hst, if_false], ?_, ?_⟩
      · intro _
        rfl
      · intro hi
        exact absurd hi hst
  · obtain ⟨r, inst, props, eps, kind, hr, hreq, hprops, he⟩ :=
      ToRegisterInstance_facts env s rreq hu
    refine ⟨r, inst, hr, hreq, ?_, ?_⟩
    · intro ha
      rw [he.hstatus, ha]
      decide
    · intro hi
      rw [he.hstatus, hi]
      decide

/-- Witness of C3 on an `INACTIVE` description. -/
theorem status_mapping_witness :
    20 ≤ sampleEnv.uuid.length ∧
    (∃ service,
      ToServiceRequest uriService (some {}) =
        some { ({} : CreateServiceRequest) with Service := some service } ∧
      (uriService.State = "ACTIVE" → service.Status = "UP") ∧
      (uriService.State = "INACTIVE" → service.Status = "DOWN")) ∧
    (∃ r inst,
      ToRegisterInstance sampleEnv uriService (some {}) = some r ∧
      r.req = some { ({} : RegisterInstanceRequest) with Instance := some inst } ∧
      (uriService.State = "ACTIVE" → inst.Status = "UP") ∧
      (uriService.State = "INACTIVE" → inst.Status = "DOWN")) ∧
    ("UP" : String) ≠ "DOWN" :=
  ⟨by decide, status_mapping sampleEnv uriService {} {} (by decide)⟩

/-- C7 (liveness interval override on encode): after `ToRegisterInstance` on a
non-nil request, a non-zero input interval leaves the property
`livenessInterval` equal to the decimal text of the default heartbeat interval
and the receiver's interval equal to that default; a zero input interval leaves
the property `"0"` and the receiver's interval zero. -/
theorem liveness_override (env : Env) (s : ServiceInfo) (req : RegisterInstanceRequest)
    (hu : 20 ≤ env.uuid.length) :
    ∃ r inst props,
      ToRegisterInstance env s (some req) = some r ∧
      r.req = some { req with Instance := some inst } ∧
      inst.Properties = some props ∧
      (s.LivenessInterval ≠ 0 →
        mapGet props "livenessInterval" = Itoa env.DefaultHeartbeatInterval ∧
        r.s.LivenessInterval = env.DefaultHeartbeatInterval) ∧
      (s.LivenessInterval = 0 →
        mapGet props "livenessInterval" = "0" ∧ r.s.LivenessInterval = 0) := by
  obtain ⟨r, inst, props, eps, kind, hr, hreq, hprops, he⟩ :=
    ToRegisterInstance_facts env s req hu
  refine ⟨r, inst, props, hr, hreq, hprops, ?_, ?_⟩
  · intro hl
    rw [he.liveness, he.hs]
    simp only [hl, ne_eq, not_false_eq_true, if_true, and_self]
  · intro hl
    rw [he.liveness, he.hs]
    simp only [hl, ne_eq, not_true_eq_false, if_false, true_and]
    decide

/-- Witness of C7: the caller's interval 5 is replaced by the default 60. -/
theorem liveness_override_witness :
    20 ≤ sampleEnv.uuid.length ∧
    ∃ r inst props,
      ToRegisterInstance sampleEnv addressService (some {}) = some r ∧
      r.req = some { ({} : RegisterInstanceRequest) with Instance := some inst } ∧
      inst.Properties = some props ∧
      (addressService.LivenessInterval ≠ 0 →
        mapGet props "livenessInterval" = Itoa sampleEnv.DefaultHeartbeatInterval ∧
        r.s.LivenessInterval = sampleEnv.DefaultHeartbeatInterval) ∧
      (addressService.LivenessInterval = 0 →
        mapGet props "livenessInterval" = "0" ∧ r.s.LivenessInterval = 0) :=
  ⟨by decide, liveness_override sampleEnv addressService {} (by decide)⟩

/-- C8 (timestamp bisection): with `d` the decimal text of the nanosecond
timestamp and `n` its length, `n` is at least 1, the split index `n / 2 + 1` is
within bounds, `ToRegisterInstance` completes and stores the first `n / 2 + 1`
characters of `d` under `timestamp/seconds` and the remaining ones under
`timestamp/nanoseconds`; the two halves concatenate to `d`, and for `n = 19`
they have 10 and 9 characters. -/
theorem timestamp_bisection (env : Env) (s : ServiceInfo) (req : RegisterInstanceRequest)
    (hu : 20 ≤ env.uuid.length) :
    1 ≤ (FormatInt env.nowUnixNano).length ∧
    (FormatInt env.nowUnixNano).length / 2 + 1 ≤ (FormatInt env.nowUnixNano).length ∧
    ∃ r inst props,
      ToRegisterInstance env s (some req) = some r ∧
      r.req = some { req with Instance := some inst } ∧
      inst.Properties = some props ∧
      mapGet props "timestamp/seconds" =
        ⟨(FormatInt env.nowUnixNano).data.take ((FormatInt env.nowUnixNano).length / 2 + 1)⟩ ∧
      mapGet props "timestamp/nanoseconds" =
        ⟨(FormatInt env.nowUnixNano).data.drop ((FormatInt env.nowUnixNano).length / 2 + 1)⟩ ∧
      mapGet props "timestamp/seconds" ++ mapGet props "timestamp/nanoseconds"
        = FormatInt env.nowUnixNano ∧
      ((FormatInt env.nowUnixNano).length = 19 →
        (mapGet props "timestamp/seconds").length = 10 ∧
        (mapGet props "timestamp/nanoseconds").length = 9) := by
  obtain ⟨r, inst, props, eps, kind, hr, hreq, hprops, he⟩ :=
    ToRegisterInstance_facts env s req hu
  have hlen := FormatInt_length_pos env.nowUnixNano
  refine ⟨hlen, by omega, r, inst, props, hr, hreq, hprops, he.seconds, he.nanoseconds, ?_, ?_⟩
  · rw [he.seconds, he.nanoseconds]
    apply String.ext
    simp only [String.data_append, List.take_append_drop]
  · intro h19
    rw [he.seconds, he.nanoseconds]
    have h19d : (FormatInt env.nowUnixNano).data.length = 19 := h19
    simp only [String.length, List.length_take, List.length_drop, h19d]
    decide

/-- Witness of C8 on the timestamp 1600000000123456789. -/
theorem timestamp_bisection_witness :
    20 ≤ sampleEnv.uuid.length ∧
    1 ≤ (FormatInt sampleEnv.nowUnixNano).length ∧
    (FormatInt sampleEnv.nowUnixNano).length / 2 + 1 ≤ (FormatInt sampleEnv.nowUnixNano).length ∧
    ∃ r inst props,
      ToRegisterInstance sampleEnv addressService (some {}) = some r ∧
      r.req = some { ({} : RegisterInstanceRequest) with Instance := some inst } ∧
      inst.Properties = some props ∧
      mapGet props "timestamp/seconds" =
        ⟨(FormatInt sampleEnv.nowUnixNano).data.take
          ((FormatInt sampleEnv.nowUnixNano).length / 2 + 1)⟩ ∧
      mapGet props "timestamp/nanoseconds" =
        ⟨(FormatInt sampleEnv.nowUnixNano).data.drop
          ((FormatInt sampleEnv.nowUnixNano).length / 2 + 1)⟩ ∧
      mapGet props "timestamp/seconds" ++ mapGet props "timestamp/nanoseconds"
        = FormatInt sampleEnv.nowUnixNano ∧
      ((FormatInt sampleEnv.nowUnixNano).length = 19 →
        (mapGet props "timestamp/seconds").length = 10 ∧
        (mapGet props "timestamp/nanoseconds").length = 9) :=
  ⟨by decide, timestamp_bisection sampleEnv addressService {} (by decide)⟩


theorem toEndpoints_of_uris (env : Env) (s : ServiceInfo)
    (hU : s.TransportInfo.Endpoint.Uris ≠ []) :
    toEndpoints env s = some (s.TransportInfo.Endpoint.Uris, "uris", []) := by
  have h : s.TransportInfo.Endpoint.Uris.length ≠ 0 := by
    simpa [List.length_eq_zero] using hU
  simp [toEndpoints, h, meputil.Uris]

theorem toEndpoints_of_addresses (env : Env) (s : ServiceInfo)
    (hU : s.TransportInfo.Endpoint.Uris = [])
    (hA : s.TransportInfo.Endpoint.Addresses ≠ [])
    (hu : 20 ≤ env.uuid.length) :
    ∃ calls, toEndpoints env s =
      some (["https://mep-api-gw.mep:8443/" ++ s.SerName ++ ⟨env.uuid.data.take 20⟩], "uris",
        calls) := by
  cases hA2 : s.TransportInfo.Endpoint.Addresses with
  | nil => exact absurd hA2 hA
  | cons a as =>
    simp [toEndpoints, hU, hA2, slice_zero env.uuid 20 hu, registerToApigw, AddApigwService,
      meputil.Uris, String.append_assoc]

theorem toEndpoints_of_none (env : Env) (s : ServiceInfo)
    (hU : s.TransportInfo.Endpoint.Uris = [])
    (hA : s.TransportInfo.Endpoint.Addresses = [])
    (hN : s.TransportInfo.Endpoint.Alternative = none) :
    toEndpoints env s = some ([], "", []) := by
  simp [toEndpoints, hU, hA, hN]

theorem fromEndpoints_uris (env : Env) (uris : List String) :
    fromEndpoints env {} uris "uris" = some (setEndpoint {} { Uris := uris }) := by
  simp [fromEndpoints, setEndpoint]

theorem fromEndpoints_empty_kind (env : Env) (uris : List String) :
    fromEndpoints env {} uris "" = some {} := by
  simp [fromEndpoints]

/-- C1, amended (round trip of the property codec): for a description with a
non-zero liveness interval, encoding with `ToRegisterInstance` and decoding the
instance into a fresh `ServiceInfo` completes and reproduces name, category,
version, state, transport id, the id, name, description, type, protocol,
version and token endpoint of the transport info, serializer, scope of locality
and both booleans; the liveness interval becomes the default heartbeat
interval.  The endpoint is reproduced when it holds no address and no
alternative; a URI list is always reproduced; an address list without URIs
decodes as the single synthesized gateway URI and no address. -/
theorem roundTrip_fields (env : Env) (s : ServiceInfo) (req : RegisterInstanceRequest)
    (hu : 20 ≤ env.uuid.length)
    (hlo : -(2 ^ 63) ≤ env.DefaultHeartbeatInterval) (hhi : env.DefaultHeartbeatInterval < 2 ^ 63)
    (hl : s.LivenessInterval ≠ 0) :
    ∃ s', roundTrip env s req = some s' ∧
      s'.SerName = s.SerName ∧ s'.SerCategory = s.SerCategory ∧ s'.Version = s.Version ∧
      s'.State = s.State ∧ s'.TransportID = s.TransportID ∧
      s'.TransportInfo.ID = s.TransportInfo.ID ∧
      s'.TransportInfo.Name = s.TransportInfo.Name ∧
      s'.TransportInfo.Description = s.TransportInfo.Description ∧
      s'.TransportInfo.TransType = s.TransportInfo.TransType ∧
      s'.TransportInfo.Protocol = s.TransportInfo.Protocol ∧
      s'.TransportInfo.Version = s.TransportInfo.Version ∧
      s'.TransportInfo.Security.OAuth2Info.TokenEndpoint =
        s.TransportInfo.Security.OAuth2Info.TokenEndpoint ∧
      s'.Serializer = s.Serializer ∧ s'.ScopeOfLocality = s.ScopeOfLocality ∧
      s'.ConsumedLocalOnly = s.ConsumedLocalOnly ∧ s'.IsLocal = s.IsLocal ∧
      s'.LivenessInterval = env.DefaultHeartbeatInterval ∧
      (s.TransportInfo.Endpoint.Addresses = [] → s.TransportInfo.Endpoint.Alternative = none →
        s'.TransportInfo.Endpoint = s.TransportInfo.Endpoint) ∧
      (s.TransportInfo.Endpoint.Uris ≠ [] →
        s'.TransportInfo.Endpoint.Uris = s.TransportInfo.Endpoint.Uris) ∧
      (s.TransportInfo.Endpoint.Uris = [] → s.TransportInfo.Endpoint.Addresses ≠ [] →
        s'.TransportInfo.Endpoint =
          { Uris := ["https://mep-api-gw.mep:8443/" ++ s.SerName ++ ⟨env.uuid.data.take 20⟩] }) := by
  obtain ⟨r, inst, props, eps, kind, s1, s', hr, hreq, hprops, he, hrt, hs1, hd⟩ :=
    roundTrip_facts env s req hu
  have hver : inst.Version = s.Version := he.hversion
  have hcat : s'.SerCategory = s.SerCategory := by
    rw [hd.category, he.href, he.catId, he.catName, he.catVersion]
  have hliv : s'.LivenessInterval = env.DefaultHeartbeatInterval := by
    rw [hd.liveness, he.liveness, if_pos hl, Atoi_Itoa _ hlo hhi]
  have hcons : s'.ConsumedLocalOnly = s.ConsumedLocalOnly := by
    rw [hd.consumed, he.consumed, ParseBool_FormatBool]
  have hloc : s'.IsLocal = s.IsLocal := by
    rw [hd.isLocal, he.isLocal, ParseBool_FormatBool]
  refine ⟨s', hrt, ?_, hcat, ?_, ?_, ?_, ?_, ?_, ?_, ?_, ?_, ?_, ?_, ?_, ?_, hcons, hloc, hliv,
    ?_, ?_, ?_⟩
  · rw [hd.serName, he.serName]
  · rw [hd.version, hver]
  · rw [hd.state, he.mecState]
  · rw [hd.transportID, he.transportId]
  · rw [hd.tiId, he.tiId]
  · rw [hd.tiName, he.tiName]
  · rw [hd.tiDescription, he.tiDescription]
  · rw [hd.tiType, he.tiType]
  · rw [hd.tiProtocol, he.tiProtocol]
  · rw [hd.tiVersion, he.tiVersion]
  · rw [hd.tokenEndpoint, he.tokenEndpoint]
  · rw [hd.serializer, he.serializer]
  · rw [hd.scope, he.scope]
  · intro hA hN
    by_cases hU : s.TransportInfo.Endpoint.Uris = []
    · have hte := he.hte
      rw [toEndpoints_of_none env s hU hA hN] at hte
      simp only [Option.some.injEq, Prod.mk.injEq] at hte
      rw [← hte.1, ← hte.2.1, fromEndpoints_empty_kind] at hs1
      cases hs1
      rw [hd.endpoint]
      cases hE : s.TransportInfo.Endpoint
      simp_all
    · have hte := he.hte
      rw [toEndpoints_of_uris env s hU] at hte
      simp only [Option.some.injEq, Prod.mk.injEq] at hte
      rw [← hte.1, ← hte.2.1, fromEndpoints_uris] at hs1
      cases hs1
      rw [hd.endpoint]
      cases hE : s.TransportInfo.Endpoint
      simp_all [setEndpoint]
  · intro hU
    have hte := he.hte
    rw [toEndpoints_of_uris env s hU] at hte
    simp only [Option.some.injEq, Prod.mk.injEq] at hte
    rw [← hte.1, ← hte.2.1, fromEndpoints_uris] at hs1
    cases hs1
    rw [hd.endpoint]
    rfl
  · intro hU hA
    obtain ⟨calls, hc⟩ := toEndpoints_of_addresses env s hU hA hu
    have hte := he.hte
    rw [hc] at hte
    simp only [Option.some.injEq, Prod.mk.injEq] at hte
    rw [← hte.1, ← hte.2.1, fromEndpoints_uris] at hs1
    cases hs1
    rw [hd.endpoint]
    rfl


/-- Witness of the amended C1 on a description with one address. -/
theorem roundTrip_fields_witness :
    20 ≤ sampleEnv.uuid.length ∧ -(2 ^ 63) ≤ sampleEnv.DefaultHeartbeatInterval ∧
    sampleEnv.DefaultHeartbeatInterval < 2 ^ 63 ∧ addressService.LivenessInterval ≠ 0 ∧
    ∃ s', roundTrip sampleEnv addressService {} = some s' ∧
      s'.SerName = addressService.SerName ∧
      s'.LivenessInterval = sampleEnv.DefaultHeartbeatInterval :=
  ⟨by decide, by decide, by decide, by decide,
    match roundTrip_fields sampleEnv addressService {} (by decide) (by decide) (by decide)
      (by decide) with
    | ⟨s', h⟩ => ⟨s', h.1, h.2.1, h.2.2.2.2.2.2.2.2.2.2.2.2.2.2.2.2.2.1⟩⟩

/-- C1 as stated fails: the valid description `addressService` (non-zero
liveness interval, one address `10.0.0.5:8080`, no URI) is encoded and decoded
without failure, but the decoded endpoint is a URI list holding the synthesized
gateway URI and has no address, so the endpoint is not reproduced. -/
theorem roundTrip_counterexample :
    addressService.LivenessInterval ≠ 0 ∧
    addressService.TransportInfo.Endpoint = { Addresses := [{ Host := "10.0.0.5", Port := 8080 }] } ∧
    ∃ s', roundTrip sampleEnv addressService {} = some s' ∧
      s'.TransportInfo.Endpoint =
        { Uris := ["https://mep-api-gw.mep:8443/svc0123456789abcdef0123"] } ∧
      s'.TransportInfo.Endpoint ≠ addressService.TransportInfo.Endpoint :=
  ⟨by decide, rfl, _, rfl, by decide, by decide⟩


/-! ## Tolerant decoding -/

theorem ParseInt_syntax_zero (l : List Char) (h : (ParseInt l).2 = some NumErr.ErrSyntax) :
    (ParseInt l).1 = 0 := by
  unfold ParseInt at h ⊢
  cases l with
  | nil => rfl
  | cons c cs =>
    simp only at h ⊢
    split_ifs at h ⊢ <;> first | rfl | (simp at h)

/-- Whenever `Atoi` reports a syntax error the value it returns is 0. -/
theorem Atoi_syntax_zero (v : String) (h : (Atoi v).2 = some NumErr.ErrSyntax) :
    (Atoi v).1 = 0 := by
  unfold Atoi at h ⊢
  simp only at h ⊢
  split_ifs at h ⊢
  · cases hv : v.data with
    | nil => rfl
    | cons c cs =>
      simp only [hv] at h ⊢
      by_cases h1 : (c = '-' ∨ c = '+') ∧ (if c = '-' ∨ c = '+' then cs else c :: cs).length < 1
      · rw [if_pos h1]
      · rw [if_neg h1] at h ⊢
        cases hloop : atoiFastLoop (if c = '-' ∨ c = '+' then cs else c :: cs) 0 with
        | none => rfl
        | some n =>
          rw [hloop] at h
          simp at h
  · exact ParseInt_syntax_zero _ h

theorem Atoi_empty : Atoi "" = (0, some NumErr.ErrSyntax) := by decide


/-- C9 as stated fails: the property value `99999999999999999999x` is not a
decimal integer, yet `strconv.Atoi` stops at the overflowing digit with a range
error and the clamped maximum, which `FromServiceInstance` keeps: the decoded
liveness interval is 9223372036854775807, not 0, and the self link is set. -/
theorem decode_liveness_counterexample :
    overflowInstance.Properties =
      some [("livenessInterval", "99999999999999999999x"), ("liveness", "/hb"),
        ("serName", "svc")] ∧
    isDecimalInteger "99999999999999999999x" = false ∧
    ∃ s', FromServiceInstance sampleEnv {} (some overflowInstance) = some s' ∧
      s'.LivenessInterval = 9223372036854775807 ∧ s'.LivenessInterval ≠ 0 ∧
      s'.Links.Self.Href = "/hb" :=
  ⟨rfl, by decide, _, rfl, by decide, by decide, by decide⟩

/-- C9, amended (tolerant decode of the liveness interval): for an instance with
a non-nil property bag whose `livenessInterval` is missing (reads as the empty
string) or is a value on which `strconv.Atoi` reports a syntax error, and whose
endpoint kind is not `"alternative"` or which carries at least one endpoint
string, `FromServiceInstance` completes, leaves the liveness interval 0, leaves
the links of the receiver untouched (empty for a fresh receiver), and decodes
every other field from the bag. -/
theorem decode_liveness_tolerant (env : Env) (s0 : ServiceInfo) (inst : MicroServiceInstance)
    (props : Properties) (hp : inst.Properties = some props)
    (hv : mapGet props "livenessInterval" = "" ∨
      (Atoi (mapGet props "livenessInterval")).2 = some NumErr.ErrSyntax)
    (hsafe : mapGet props "endPointType" ≠ "alternative" ∨ inst.Endpoints ≠ []) :
    ∃ s' s1, FromServiceInstance env s0 (some inst) = some s' ∧
      s'.LivenessInterval = 0 ∧ s'.Links = s0.Links ∧
      ((s0.Links.Self.Href = "") → s'.Links.Self.Href = "") ∧
      s'.SerInstanceId = inst.ServiceId ++ inst.InstanceId ∧
      s'.SerCategory =
        { Href := mapGet props "serCategory/href", ID := mapGet props "serCategory/id",
          Name := mapGet props "serCategory/name",
          Version := mapGet props "serCategory/version" } ∧
      s'.Version = inst.Version ∧
      s'.State = mapGet props "mecState" ∧
      s'.SerName = mapGet props "serName" ∧
      s'.TransportID = mapGet props "transportId" ∧
      s'.Serializer = mapGet props "serializer" ∧
      s'.ScopeOfLocality = mapGet props "ScopeOfLocality" ∧
      s'.ConsumedLocalOnly = (ParseBool (mapGet props "ConsumedLocalOnly")).1 ∧
      s'.IsLocal = (ParseBool (mapGet props "IsLocal")).1 ∧
      fromEndpoints env s0 inst.Endpoints (mapGet props "endPointType") = some s1 ∧
      s'.TransportInfo.Endpoint = s1.TransportInfo.Endpoint ∧
      s'.TransportInfo.ID = mapGet props "transportInfo/id" ∧
      s'.TransportInfo.Name = mapGet props "transportInfo/name" ∧
      s'.TransportInfo.Description = mapGet props "transportInfo/description" ∧
      s'.TransportInfo.TransType = mapGet props "transportInfo/type" ∧
      s'.TransportInfo.Protocol = mapGet props "transportInfo/protocol" ∧
      s'.TransportInfo.Version = mapGet props "transportInfo/version" ∧
      s'.TransportInfo.Security.OAuth2Info.GrantTypes =
        Split (mapGet props "transportInfo/security/oAuth2Info/grantTypes") ',' ∧
      s'.TransportInfo.Security.OAuth2Info.TokenEndpoint =
        mapGet props "transportInfo/security/oAuth2Info/tokenEndpoint" := by
  have hz : (Atoi (mapGet props "livenessInterval")).1 = 0 := by
    rcases hv with hv | hv
    · rw [hv, Atoi_empty]
    · exact Atoi_syntax_zero _ hv
  obtain ⟨s', hs'⟩ := FromServiceInstance_total env s0 inst props hp hsafe
  obtain ⟨s1, hs1, hd⟩ := FromServiceInstance_facts env s0 s' inst props hp hs'
  have hlinks : s'.Links = s0.Links := by
    rw [hd.links, hz]
    simp
  refine ⟨s', s1, hs', by rw [hd.liveness, hz], hlinks, fun h0 => by rw [hlinks, h0],
    hd.serInstanceId, hd.category, hd.version, hd.state, hd.serName, hd.transportID,
    hd.serializer, hd.scope, hd.consumed, hd.isLocal, hs1, hd.endpoint, hd.tiId, hd.tiName,
    hd.tiDescription, hd.tiType, hd.tiProtocol, hd.tiVersion, hd.grantTypes, hd.tokenEndpoint⟩

/-- Witness of the amended C9: the value `soon` is a syntax error for `Atoi`. -/
theorem decode_liveness_tolerant_witness :
    plainInstance.Properties =
      some [("livenessInterval", "soon"), ("liveness", "/hb"), ("serName", "svc"),
        ("endPointType", "uris"), ("mecState", "ACTIVE"), ("IsLocal", "true")] ∧
    (Atoi "soon").2 = some NumErr.ErrSyntax ∧
    ∃ s', FromServiceInstance sampleEnv {} (some plainInstance) = some s' ∧
      s'.LivenessInterval = 0 ∧ s'.Links.Self.Href = "" ∧ s'.SerName = "svc" :=
  ⟨rfl, by decide,
    match decode_liveness_tolerant sampleEnv {} plainInstance _ rfl (Or.inr (by decide))
      (Or.inl (by decide)) with
    | ⟨s', _, h⟩ => ⟨s', h.1, h.2.1, h.2.2.2.1 rfl, h.2.2.2.2.2.2.2.2.1⟩⟩


/-! ## The dispatch stage -/

/-- The loop of `checkInstanceId` is an existence test. -/
theorem checkInstanceIdLoop_iff (l : List MicroServiceInstance) (instanceId : String) :
    checkInstanceIdLoop l instanceId = true ↔
      ∃ val ∈ l, val.ServiceId ++ val.InstanceId = instanceId := by
  induction l with
  | nil => simp [checkInstanceIdLoop]
  | cons a l ih =>
    unfold checkInstanceIdLoop
    by_cases h : a.ServiceId ++ a.InstanceId = instanceId
    · simp [h]
    · simp [h, ih]

/-- On a non-nil find response `filterAppInstanceId` completes and leaves the error
state alone. -/
theorem filterAppInstanceId_response (t : DiscoverService) (value : FindInstancesResponse)
    (h : t.CoreRsp = CoreValue.FindInstancesResponse (some value)) :
    ∃ t', t.filterAppInstanceId = some t' ∧ t'.TaskBase = t.TaskBase := by
  unfold DiscoverService.filterAppInstanceId
  by_cases hq : t.QueryParam.Get ":appInstanceId" = ""
  · simp only [hq, if_true]
    exact ⟨t, rfl, rfl⟩
  · simp only [hq, if_false, h]
    exact ⟨_, rfl, rfl⟩

/-- C10, amended (application-id check in dispatch): for a find request whose
application id is not `"default"`, on a stage with no error recorded.  With an
empty service name and a response from the local index, the stage completes and
records no error exactly when at least one result instance has the composite id
`ServiceId + InstanceId` equal to the application id; when none has, it records
the service-not-found error `"instance id not found"`.  With a non-empty service
name and a response from the registry, the stage completes and records no
error, whatever the composite ids are. -/
theorem dispatch_checks_application_id (env : DiscoverEnv) (t : DiscoverService)
    (req : FindInstancesRequest)
    (hreq : t.CoreRequest = CoreValue.FindInstancesRequest (some req))
    (hfresh : t.TaskBase.firstError = none)
    (happ : req.AppId ≠ "default") :
    (∀ rsp : FindInstancesResponse, req.ServiceName = "" →
      env.FindInstanceByKey t.QueryParam = (CoreValue.FindInstancesResponse (some rsp), false) →
      ∃ t', DiscoverService.OnRequest env t = some t' ∧
        (t'.TaskBase.firstError = none ↔
          ∃ val ∈ rsp.Instances, val.ServiceId ++ val.InstanceId = req.AppId) ∧
        ((¬ ∃ val ∈ rsp.Instances, val.ServiceId ++ val.InstanceId = req.AppId) →
          t'.TaskBase.firstError =
            some (ErrCode.SerErrServiceNotFound, "instance id not found"))) ∧
    (∀ rsp : FindInstancesResponse, req.ServiceName ≠ "" →
      env.Find t.Ctx req = (some rsp, false) →
      ∃ t', DiscoverService.OnRequest env t = some t' ∧ t'.TaskBase.firstError = none) := by
  constructor
  · intro rsp hname hfind
    by_cases hex : ∃ val ∈ rsp.Instances, val.ServiceId ++ val.InstanceId = req.AppId
    · have hloop := (checkInstanceIdLoop_iff rsp.Instances req.AppId).2 hex
      obtain ⟨t', ht', hbase⟩ := filterAppInstanceId_response
        { t with CoreRsp := CoreValue.FindInstancesResponse (some rsp) } rsp rfl
      refine ⟨t', ?_, ?_, ?_⟩
      · simpa [DiscoverService.OnRequest, hreq, hname, hfind, DiscoverService.checkInstanceId,
          happ, hloop] using ht'
      · rw [hbase]
        simp [hfresh, hex]
      · intro hne
        exact absurd hex hne
    · have hloop : checkInstanceIdLoop rsp.Instances req.AppId = false := by
        cases hb : checkInstanceIdLoop rsp.Instances req.AppId with
        | false => rfl
        | true => exact absurd ((checkInstanceIdLoop_iff rsp.Instances req.AppId).1 hb) hex
      obtain ⟨t', ht', hbase⟩ := filterAppInstanceId_response
        { t with
          CoreRsp := CoreValue.FindInstancesResponse (some rsp)
          TaskBase :=
            t.TaskBase.SetFirstErrorCode ErrCode.SerErrServiceNotFound "instance id not found" }
        rsp rfl
      have herr : t'.TaskBase.firstError =
          some (ErrCode.SerErrServiceNotFound, "instance id not found") := by
        rw [hbase]
        simp [TaskBase.SetFirstErrorCode, hfresh]
      refine ⟨t', ?_, ?_, fun _ => herr⟩
      · simpa [DiscoverService.OnRequest, hreq, hname, hfind, DiscoverService.checkInstanceId,
          happ, hloop] using ht'
      · rw [herr]
        simp [hex]
  · intro rsp hname hfind
    obtain ⟨t', ht', hbase⟩ := filterAppInstanceId_response
      { t with CoreRsp := CoreValue.FindInstancesResponse (some rsp) } rsp rfl
    refine ⟨t', ?_, ?_⟩
    · simpa [DiscoverService.OnRequest, hreq, hname, hfind] using ht'
    · rw [hbase]
      exact hfresh

/-- Witness of the amended C10: application id `abc123` against the composite
ids `abc123` and `xyz789`. -/
theorem dispatch_checks_application_id_witness :
    (sampleStage "abc123" "").TaskBase.firstError = none ∧ ("abc123" : String) ≠ "default" ∧
    ∃ t', DiscoverService.OnRequest sampleDiscoverEnv (sampleStage "abc123" "") = some t' ∧
      (t'.TaskBase.firstError = none ↔
        ∃ val ∈ [instanceAbc123, instanceXyz789], val.ServiceId ++ val.InstanceId = "abc123") :=
  ⟨rfl, by decide,
    match (dispatch_checks_application_id sampleDiscoverEnv (sampleStage "abc123" "")
      { AppId := "abc123", ServiceName := "", VersionRule := "latest" } rfl rfl (by decide)).1
      { Instances := [instanceAbc123, instanceXyz789] } rfl rfl with
    | ⟨t', h⟩ => ⟨t', h.1, h.2.1⟩⟩

/-- C10 as stated fails: with application id `abc123` and the result instances
`abc123` and `xyz789`, the dispatch stage records no error although not every
result instance has the composite id `abc123`. -/
theorem dispatch_counterexample :
    ("abc123" : String) ≠ "default" ∧
    (∃ t', DiscoverService.OnRequest sampleDiscoverEnv (sampleStage "abc123" "") = some t' ∧
      t'.TaskBase.firstError = none ∧
      t'.CoreRsp =
        CoreValue.FindInstancesResponse (some { Instances := [instanceAbc123, instanceXyz789] })) ∧
    ¬ (∀ val ∈ [instanceAbc123, instanceXyz789], val.ServiceId ++ val.InstanceId = "abc123") :=
  ⟨by decide, ⟨_, rfl, rfl, rfl⟩, by decide⟩


/-! ## The application-instance-id filter -/

theorem filterAppInstanceIdLoop_eq (l : List MicroServiceInstance) (a : String) :
    ∀ result : List MicroServiceInstance,
      filterAppInstanceIdLoop l a result
        = result ++ l.filter fun inst => decide (instanceProperty inst "appInstanceId" = a) := by
  induction l with
  | nil => intro result; simp [filterAppInstanceIdLoop]
  | cons inst rest ih =>
    intro result
    unfold filterAppInstanceIdLoop
    by_cases h : instanceProperty inst "appInstanceId" = a
    · have h2 : (match inst.Properties with
          | none => ""
          | some properties => mapGet properties "appInstanceId") = a := h
      simp only [h2, if_true, ih, List.filter_cons, h, decide_True, List.append_assoc,
        List.singleton_append]
    · have h2 : ¬ (match inst.Properties with
          | none => ""
          | some properties => mapGet properties "appInstanceId") = a := h
      simp only [h2, if_false, ih, List.filter_cons, h, decide_False]
      simp

/-- The result of `filterAppInstanceId` on a non-nil find response. -/
theorem filterAppInstanceId_eq (t : DiscoverService) (value : FindInstancesResponse)
    (h : t.CoreRsp = CoreValue.FindInstancesResponse (some value)) :
    t.filterAppInstanceId = some { t with
      CoreRsp := CoreValue.FindInstancesResponse (some { value with
        Instances :=
          if t.QueryParam.Get ":appInstanceId" = "" then value.Instances
          else value.Instances.filter fun inst =>
            decide (instanceProperty inst "appInstanceId" = t.QueryParam.Get ":appInstanceId") }) } := by
  unfold DiscoverService.filterAppInstanceId
  by_cases hq : t.QueryParam.Get ":appInstanceId" = ""
  · simp only [hq, if_true]
    rw [← h]
  · simp only [hq, if_false, h, filterAppInstanceIdLoop_eq, List.nil_append]

/-- C12 (application-instance-id filter): on a result set, a non-empty
`:appInstanceId` query value `a` makes `filterAppInstanceId` replace the
instance list by the sub-list, in the original order, of the instances whose
property `appInstanceId` equals `a`, without touching the error state, whether
or not that sub-list is empty; an empty query value leaves the stage as it is. -/
theorem filterAppInstanceId_sublist (t : DiscoverService) (value : FindInstancesResponse)
    (h : t.CoreRsp = CoreValue.FindInstancesResponse (some value)) :
    (t.QueryParam.Get ":appInstanceId" ≠ "" →
      ∃ t', t.filterAppInstanceId = some t' ∧
        t'.CoreRsp = CoreValue.FindInstancesResponse (some { value with
          Instances := value.Instances.filter fun inst =>
            decide (instanceProperty inst "appInstanceId" = t.QueryParam.Get ":appInstanceId") }) ∧
        t'.TaskBase = t.TaskBase) ∧
    (t.QueryParam.Get ":appInstanceId" = "" → t.filterAppInstanceId = some t) := by
  constructor
  · intro hq
    refine ⟨_, filterAppInstanceId_eq t value h, ?_, rfl⟩
    simp only [hq, if_false]
  · intro hq
    simp only [DiscoverService.filterAppInstanceId, hq, if_true]

/-- Witness of C12: of three results, the two of application instance `app-1`
are kept, in order. -/
theorem filterAppInstanceId_sublist_witness :
    filterStage.CoreRsp = CoreValue.FindInstancesResponse
      (some { Instances := [instanceApp1, instanceApp2, instanceApp1] }) ∧
    filterStage.QueryParam.Get ":appInstanceId" = "app-1" ∧
    ∃ t', filterStage.filterAppInstanceId = some t' ∧
      t'.CoreRsp = CoreValue.FindInstancesResponse
        (some { Instances := [instanceApp1, instanceApp1] }) ∧
      t'.TaskBase = filterStage.TaskBase :=
  ⟨rfl, by decide,
    (filterAppInstanceId_sublist filterStage
      { Instances := [instanceApp1, instanceApp2, instanceApp1] } rfl).1 (by decide)⟩

/-! ## Filtered discover -/

/-- On a non-nil find response `filterAppInstanceId` completes; its effect on
`CoreRsp` and on the error state. -/
theorem filterAppInstanceId_effect (t : DiscoverService) (value : FindInstancesResponse)
    (h : t.CoreRsp = CoreValue.FindInstancesResponse (some value)) :
    ∃ t', t.filterAppInstanceId = some t' ∧
      t'.CoreRsp = CoreValue.FindInstancesResponse (some { value with
        Instances :=
          if t.QueryParam.Get ":appInstanceId" = "" then value.Instances
          else value.Instances.filter fun inst =>
            decide (instanceProperty inst "appInstanceId" = t.QueryParam.Get ":appInstanceId") }) ∧
      t'.TaskBase = t.TaskBase :=
  ⟨_, filterAppInstanceId_eq t value h, rfl, rfl⟩

/-- C11, amended (filtered discover): for a request with an empty service name
and an application id that is not `"default"`, on a stage with no error
recorded, when the local index returns a result set: the dispatch stage
completes and leaves in `CoreRsp` all the instances the index returned, whether
or not their composite id equals the application id, restricted only by the
`:appInstanceId` query filter when that query value is non-empty; it records no
error when at least one returned instance has the composite id, and the
service-not-found error `"instance id not found"` when none has. -/
theorem dispatch_keeps_all_instances (env : DiscoverEnv) (t : DiscoverService)
    (req : FindInstancesRequest) (rsp : FindInstancesResponse)
    (hreq : t.CoreRequest = CoreValue.FindInstancesRequest (some req))
    (hfresh : t.TaskBase.firstError = none)
    (happ : req.AppId ≠ "default") (hname : req.ServiceName = "")
    (hfind : env.FindInstanceByKey t.QueryParam =
      (CoreValue.FindInstancesResponse (some rsp), false)) :
    ∃ t', DiscoverService.OnRequest env t = some t' ∧
      t'.CoreRsp = CoreValue.FindInstancesResponse (some { rsp with
        Instances :=
          if t.QueryParam.Get ":appInstanceId" = "" then rsp.Instances
          else rsp.Instances.filter fun inst =>
            decide (instanceProperty inst "appInstanceId" = t.QueryParam.Get ":appInstanceId") }) ∧
      ((∃ val ∈ rsp.Instances, val.ServiceId ++ val.InstanceId = req.AppId) →
        t'.TaskBase.firstError = none) ∧
      ((¬ ∃ val ∈ rsp.Instances, val.ServiceId ++ val.InstanceId = req.AppId) →
        t'.TaskBase.firstError =
          some (ErrCode.SerErrServiceNotFound, "instance id not found")) := by
  by_cases hex : ∃ val ∈ rsp.Instances, val.ServiceId ++ val.InstanceId = req.AppId
  · have hloop := (checkInstanceIdLoop_iff rsp.Instances req.AppId).2 hex
    obtain ⟨t', hf, hc, hb⟩ := filterAppInstanceId_effect
      { t with CoreRsp := CoreValue.FindInstancesResponse (some rsp) } rsp rfl
    refine ⟨t', ?_, hc, fun _ => by rw [hb]; exact hfresh, fun hne => absurd hex hne⟩
    simpa [DiscoverService.OnRequest, hreq, hname, hfind, DiscoverService.checkInstanceId,
      happ, hloop] using hf
  · have hloop : checkInstanceIdLoop rsp.Instances req.AppId = false := by
      cases hb : checkInstanceIdLoop rsp.Instances req.AppId with
      | false => rfl
      | true => exact absurd ((checkInstanceIdLoop_iff rsp.Instances req.AppId).1 hb) hex
    obtain ⟨t', hf, hc, hb⟩ := filterAppInstanceId_effect
      { t with
        CoreRsp := CoreValue.FindInstancesResponse (some rsp)
        TaskBase :=
          t.TaskBase.SetFirstErrorCode ErrCode.SerErrServiceNotFound "instance id not found" }
      rsp rfl
    refine ⟨t', ?_, hc, fun h => absurd h hex, fun _ => ?_⟩
    · simpa [DiscoverService.OnRequest, hreq, hname, hfind, DiscoverService.checkInstanceId,
        happ, hloop] using hf
    · rw [hb]
      simp [TaskBase.SetFirstErrorCode, hfresh]

/-- Witness of the amended C11: application id `abc123`, index results `abc123`
and `xyz789`: both are left in `CoreRsp`. -/
theorem dispatch_keeps_all_instances_witness :
    (sampleStage "abc123" "").TaskBase.firstError = none ∧ ("abc123" : String) ≠ "default" ∧
    ∃ t', DiscoverService.OnRequest sampleDiscoverEnv (sampleStage "abc123" "") = some t' ∧
      t'.CoreRsp = CoreValue.FindInstancesResponse
        (some { Instances := [instanceAbc123, instanceXyz789] }) ∧
      t'.TaskBase.firstError = none :=
  ⟨rfl, by decide,
    match dispatch_keeps_all_instances sampleDiscoverEnv (sampleStage "abc123" "")
      { AppId := "abc123", ServiceName := "", VersionRule := "latest" }
      { Instances := [instanceAbc123, instanceXyz789] } rfl rfl (by decide) rfl rfl with
    | ⟨t', h⟩ => ⟨t', h.1, h.2.1, h.2.2.1 ⟨instanceAbc123, by decide, by decide⟩⟩⟩

/-- C11 as stated fails: with application id `abc123` and the index results
`abc123` and `xyz789`, the result left in `CoreRsp` still holds the instance
`xyz789`, whose composite id differs from the application id. -/
theorem filtered_discover_counterexample :
    (sampleStage "abc123" "").CoreRequest = CoreValue.FindInstancesRequest
      (some { AppId := "abc123", ServiceName := "", VersionRule := "latest" }) ∧
    ∃ t' value, DiscoverService.OnRequest sampleDiscoverEnv (sampleStage "abc123" "") = some t' ∧
      t'.CoreRsp = CoreValue.FindInstancesResponse (some value) ∧
      instanceXyz789 ∈ value.Instances ∧
      instanceXyz789.ServiceId ++ instanceXyz789.InstanceId ≠ "abc123" ∧
      value.Instances ≠ [instanceAbc123] :=
  ⟨rfl, _, _, rfl, rfl, by decide, by decide, by decide⟩

/-! ## The transcode stage -/

/-- The loop of `Mp1CvtSrvDiscover` returns exactly when every decode completes,
and then returns what was accumulated followed by one decoded `ServiceInfo` per
instance, in order. -/
theorem Mp1CvtSrvDiscoverLoop_some (env : Env) (l : List MicroServiceInstance) :
    ∀ acc out : List ServiceInfo,
      Mp1CvtSrvDiscoverLoop env l acc = some out ↔
        ∃ decoded, out = acc ++ decoded ∧
          List.Forall₂ (fun ins si => FromServiceInstance env {} (some ins) = some si)
            l decoded := by
  induction l with
  | nil =>
    intro acc out
    simp [Mp1CvtSrvDiscoverLoop, eq_comm]
  | cons ins rest ih =>
    intro acc out
    unfold Mp1CvtSrvDiscoverLoop
    cases hd : FromServiceInstance env {} (some ins) with
    | none =>
      constructor
      · intro h
        cases h
      · rintro ⟨decoded, _, hf⟩
        cases hf with
        | cons h1 _ => rw [hd] at h1; cases h1
    | some si =>
      simp only [ih]
      constructor
      · rintro ⟨decoded, rfl, hf⟩
        exact ⟨si :: decoded, by simp, List.Forall₂.cons hd hf⟩
      · rintro ⟨decoded, rfl, hf⟩
        cases hf with
        | cons h1 h2 =>
          rw [hd] at h1
          cases h1
          exact ⟨_, by simp, h2⟩

/-- A response object that is present with a code other than success is
returned with no instance data. -/
theorem Mp1CvtSrvDiscover_error (env : StageEnv) (findInsResp : FindInstancesResponse)
    (response : Response) (h : findInsResp.Response = some response)
    (hcode : response.Code ≠ env.Response_SUCCESS) :
    Mp1CvtSrvDiscover env findInsResp = some (some response, []) := by
  simp [Mp1CvtSrvDiscover, h, hcode]

/-- In every other case `Mp1CvtSrvDiscover` returns exactly when every decode
completes, and then returns the response object with one decoded `ServiceInfo`
per instance, in order. -/
theorem Mp1CvtSrvDiscover_instances (env : StageEnv) (findInsResp : FindInstancesResponse)
    (h : ∀ response, findInsResp.Response = some response → response.Code = env.Response_SUCCESS)
    (result : Option Response × List ServiceInfo) :
    Mp1CvtSrvDiscover env findInsResp = some result ↔
      result.1 = findInsResp.Response ∧
      List.Forall₂ (fun ins si => FromServiceInstance env.codec {} (some ins) = some si)
        findInsResp.Instances result.2 := by
  obtain ⟨resp, out⟩ := result
  unfold Mp1CvtSrvDiscover
  cases hr : findInsResp.Response with
  | none =>
    cases hl : Mp1CvtSrvDiscoverLoop env.codec findInsResp.Instances [] with
    | none =>
      constructor
      · intro h0
        cases h0
      · rintro ⟨_, hf⟩
        have h2 := (Mp1CvtSrvDiscoverLoop_some env.codec findInsResp.Instances [] out).2
          ⟨out, by simp, hf⟩
        rw [hl] at h2
        cases h2
    | some l =>
      have := Mp1CvtSrvDiscoverLoop_some env.codec findInsResp.Instances [] l
      simp only [List.nil_append, exists_eq_left', true_iff] at this
      simp only [Option.some.injEq, Prod.mk.injEq]
      constructor
      · rintro ⟨rfl, rfl⟩
        exact ⟨rfl, (this.1 hl)⟩
      · rintro ⟨rfl, hf⟩
        have h2 := (Mp1CvtSrvDiscoverLoop_some env.codec findInsResp.Instances [] out).2
          ⟨out, by simp, hf⟩
        rw [hl] at h2
        cases h2
        exact ⟨rfl, rfl⟩
  | some response =>
    have hc := h response hr
    simp only [hc, ne_eq, not_true_eq_false, if_false]
    cases hl : Mp1CvtSrvDiscoverLoop env.codec findInsResp.Instances [] with
    | none =>
      constructor
      · intro h0
        cases h0
      · rintro ⟨_, hf⟩
        have h2 := (Mp1CvtSrvDiscoverLoop_some env.codec findInsResp.Instances [] out).2
          ⟨out, by simp, hf⟩
        rw [hl] at h2
        cases h2
    | some l =>
      have := Mp1CvtSrvDiscoverLoop_some env.codec findInsResp.Instances [] l
      simp only [List.nil_append, exists_eq_left', true_iff] at this
      simp only [Option.some.injEq, Prod.mk.injEq]
      constructor
      · rintro ⟨rfl, rfl⟩
        exact ⟨rfl, (this.1 hl)⟩
      · rintro ⟨rfl, hf⟩
        have h2 := (Mp1CvtSrvDiscoverLoop_some env.codec findInsResp.Instances [] out).2
          ⟨out, by simp, hf⟩
        rw [hl] at h2
        cases h2
        exact ⟨rfl, rfl⟩

/-- C13 at its failing input: a find response without response object whose one
instance has endpoint kind `alternative` and no endpoint string.  The decode of
that instance indexes the empty endpoint list, so `Mp1CvtSrvDiscover` panics
instead of returning a list. -/
theorem Mp1CvtSrvDiscover_panics :
    ({ Instances := [brokenInstance] } : FindInstancesResponse).Response = none ∧
    FromServiceInstance sampleStageEnv.codec {} (some brokenInstance) = none ∧
    Mp1CvtSrvDiscover sampleStageEnv { Instances := [brokenInstance] } = none := by
  decide

/-! ## The hook stage -/

/-- A hook whose first report has no address and no URI rewrites nothing. -/
theorem instanceHookLoop_skip (hook : Nat → EndPointInfo) (l : List ServiceInfo) (calls : Nat)
    (hA : (hook calls).Addresses = []) (hU : (hook calls).Uris = []) :
    instanceHookLoop hook l calls = l := by
  cases l with
  | nil => rfl
  | cons v rest => simp [instanceHookLoop, hA, hU]

/-- A hook that always reports the same endpoint, one with an address or a URI,
rewrites every result. -/
theorem instanceHookLoop_rewrite (hook : Nat → EndPointInfo) (info : EndPointInfo)
    (hconst : ∀ calls, hook calls = info) (hinfo : ¬ (info.Addresses = [] ∧ info.Uris = []))
    (l : List ServiceInfo) :
    ∀ calls, instanceHookLoop hook l calls = l.map fun v => setEndpoint v info := by
  induction l with
  | nil => intro calls; rfl
  | cons v rest ih =>
    intro calls
    have hne : ¬ (info.Addresses.length = 0 ∧ info.Uris.length = 0) := by
      simpa [List.length_eq_zero] using hinfo
    simp only [instanceHookLoop, hconst, hne, if_false, ih, List.map_cons]

/-- C14 (hook skipping): `instanceHook` returns the result list unchanged when
the list is empty, when the header `X-ConsumerName` equals `"APIGW"`, when no
hook is installed, or when the hook reports an endpoint with no address and no
URI; in the remaining case, with the hook reporting one endpoint, the endpoint of
every result is replaced by that endpoint and nothing else changes. -/
theorem instanceHook_skip_or_rewrite (env : StageEnv) (r : Request) (rspBody : List ServiceInfo) :
    ((rspBody = [] ∨ r.HeaderGet "X-ConsumerName" = "APIGW" ∨ env.APIHook = none ∨
        ∃ hook, env.APIHook = some hook ∧ (hook 0).Addresses = [] ∧ (hook 0).Uris = []) →
      instanceHook env r (HttpRspValue.serviceInfos rspBody) = HttpRspValue.serviceInfos rspBody) ∧
    (∀ (hook : Nat → EndPointInfo) (info : EndPointInfo),
      rspBody ≠ [] → r.HeaderGet "X-ConsumerName" ≠ "APIGW" → env.APIHook = some hook →
      (∀ calls, hook calls = info) → ¬ (info.Addresses = [] ∧ info.Uris = []) →
      instanceHook env r (HttpRspValue.serviceInfos rspBody) =
        HttpRspValue.serviceInfos (rspBody.map fun v => setEndpoint v info)) := by
  constructor
  · intro h
    unfold instanceHook
    by_cases h1 : rspBody.length = 0
    · simp only [h1, if_true]
    · simp only [h1, if_false]
      by_cases h2 : r.HeaderGet "X-ConsumerName" = "APIGW"
      · simp only [h2, if_true]
      · simp only [h2, if_false]
        rcases h with h | h | h | ⟨hook, hh, hA, hU⟩
        · rw [h] at h1
          exact absurd rfl h1
        · exact absurd h h2
        · simp only [h]
        · simp only [hh, instanceHookLoop_skip hook rspBody 0 hA hU]
  · intro hook info hne hc hh hconst hinfo
    have h1 : ¬ rspBody.length = 0 := by
      simpa [List.length_eq_zero] using hne
    simp only [instanceHook, h1, if_false, hc, hh,
      instanceHookLoop_rewrite hook info hconst hinfo rspBody 0]

/-- Witness of C14: the sample hook reports the URI `http://hook/`, which
replaces the endpoint of the one result. -/
theorem instanceHook_skip_or_rewrite_witness :
    instanceHook sampleStageEnv sampleRequest (HttpRspValue.serviceInfos [addressService]) =
      HttpRspValue.serviceInfos [setEndpoint addressService { Uris := ["http://hook/"] }] ∧
    instanceHook sampleStageEnv sampleRequest (HttpRspValue.serviceInfos []) =
      HttpRspValue.serviceInfos [] :=
  ⟨(instanceHook_skip_or_rewrite sampleStageEnv sampleRequest [addressService]).2
      (fun _ => { Uris := ["http://hook/"] }) { Uris := ["http://hook/"] }
      (by decide) (by decide) rfl (fun _ => rfl) (by decide),
    (instanceHook_skip_or_rewrite sampleStageEnv sampleRequest []).1 (Or.inl rfl)⟩

/-! ## The task pipeline -/

/-- Once an error is recorded, `SetFirstErrorCode` changes nothing. -/
theorem SetFirstErrorCode_recorded (t : TaskBase) (code : ErrCode) (msg : String)
    (h : t.firstError = some (code, msg)) (code' : ErrCode) (msg' : String) :
    t.SetFirstErrorCode code' msg' = t := by
  simp [TaskBase.SetFirstErrorCode, h]

/-- With an error recorded the runner skips every stage. -/
theorem runStages_recorded (stages : List Stage) (t : DiscoverContext) (executed : List String)
    (code : ErrCode) (msg : String) (h : t.TaskBase.firstError = some (code, msg)) :
    runStages stages t executed = some (t, executed) := by
  cases stages with
  | nil => rfl
  | cons stage rest => simp [runStages, h]

/-- Running a list of stages, then more stages, is running them all. -/
theorem runStages_append (pre post : List Stage) :
    ∀ (t t1 : DiscoverContext) (executed executed1 : List String),
      runStages pre t executed = some (t1, executed1) →
      runStages (pre ++ post) t executed = runStages post t1 executed1 := by
  induction pre with
  | nil =>
    intro t t1 executed executed1 h
    simp only [runStages, Option.some.injEq, Prod.mk.injEq] at h
    rw [List.nil_append, h.1, h.2]
  | cons stage rest ih =>
    intro t t1 executed executed1 h
    simp only [List.cons_append, runStages] at h ⊢
    cases he : t.TaskBase.firstError with
    | some e =>
      simp only [he, Option.some.injEq, Prod.mk.injEq] at h ⊢
      rw [← h.1, ← h.2]
      exact (runStages_recorded post t executed e.1 e.2 he).symm
    | none =>
      simp only [he] at h ⊢
      cases hs : stage.OnRequest t with
      | none => simp [hs] at h
      | some t' =>
        simp only [hs] at h ⊢
        exact ih t' t1 _ executed1 h

/-- C15 (first error wins): in a pipeline run, let the stages before `stage`
leave the context `t1` with no error recorded, and let `stage` record the error
`(code, msg)`.  Then a later attempt to record any error leaves that code and
message in place, no stage after `stage` is run before the final stage, and the
run is completed by the final response-encoding stage alone. -/
theorem first_error_wins (pre post : List Stage) (stage final : Stage)
    (t0 t1 t2 : DiscoverContext) (executed : List String) (code : ErrCode) (msg : String)
    (hpre : runStages pre t0 [] = some (t1, executed))
    (hclean : t1.TaskBase.firstError = none)
    (hrun : stage.OnRequest t1 = some t2)
    (herr : t2.TaskBase.firstError = some (code, msg)) :
    (∀ (code' : ErrCode) (msg' : String),
      (t2.TaskBase.SetFirstErrorCode code' msg').firstError = some (code, msg)) ∧
    runStages (pre ++ stage :: post) t0 [] = some (t2, executed ++ [stage.name]) ∧
    runPipeline (pre ++ stage :: post) final t0 =
      (final.OnRequest t2).map fun t3 => (t3, executed ++ [stage.name] ++ [final.name]) := by
  have hall : runStages (pre ++ stage :: post) t0 [] = some (t2, executed ++ [stage.name]) := by
    rw [runStages_append pre (stage :: post) t0 t1 [] executed hpre]
    simp only [runStages, hclean, hrun]
    exact runStages_recorded post t2 _ code msg herr
  refine ⟨fun code' msg' => ?_, hall, ?_⟩
  · rw [SetFirstErrorCode_recorded t2.TaskBase code msg herr]
    exact herr
  · simp only [runPipeline, hall]
    cases final.OnRequest t2 <;> rfl

/-- Witness of C15 on the discover pipeline: the decode stage records the
authorization error, the dispatch, transcode and hook stages are skipped, and
the final stage runs. -/
theorem first_error_wins_witness :
    ∃ t2, DiscoverDecode.OnRequest sampleStageEnv sampleContext = some t2 ∧
      t2.TaskBase.firstError =
        some (ErrCode.AuthorizationValidateErr, "app Instance ID validation failed") ∧
      (∀ (code' : ErrCode) (msg' : String),
        (t2.TaskBase.SetFirstErrorCode code' msg').firstError =
          some (ErrCode.AuthorizationValidateErr, "app Instance ID validation failed")) ∧
      runPipeline (discoverStages sampleStageEnv) sendHttpRsp sampleContext =
        some (t2, ["DiscoverDecode", "SendHttpRsp"]) :=
  ⟨_, rfl, rfl,
    (first_error_wins [] [⟨"DiscoverService", DiscoverService.stage sampleStageEnv⟩,
        ⟨"ToStrDiscover", ToStrDiscover.OnRequest sampleStageEnv⟩,
        ⟨"RspHook", RspHook.OnRequest sampleStageEnv⟩]
      ⟨"DiscoverDecode", DiscoverDecode.OnRequest sampleStageEnv⟩ sendHttpRsp
      sampleContext sampleContext _ [] ErrCode.AuthorizationValidateErr
      "app Instance ID validation failed" rfl rfl rfl rfl).1,
    (first_error_wins [] [⟨"DiscoverService", DiscoverService.stage sampleStageEnv⟩,
        ⟨"ToStrDiscover", ToStrDiscover.OnRequest sampleStageEnv⟩,
        ⟨"RspHook", RspHook.OnRequest sampleStageEnv⟩]
      ⟨"DiscoverDecode", DiscoverDecode.OnRequest sampleStageEnv⟩ sendHttpRsp
      sampleContext sampleContext _ [] ErrCode.AuthorizationValidateErr
      "app Instance ID validation failed" rfl rfl rfl rfl).2.2⟩

/-! ## TLS configuration -/

/-- The map `cipherSuiteMap` holds exactly the two allow-listed names. -/
theorem cipherSuiteLookup_allow_list (cipherName : String) (value : Nat) :
    cipherSuiteLookup cipherSuiteMap cipherName = some value ↔
      (cipherName = "TLS_ECDHE_RSA_WITH_AES_128_GCM_SHA256" ∧ value = 0xc02f) ∨
      (cipherName = "TLS_ECDHE_RSA_WITH_AES_256_GCM_SHA384" ∧ value = 0xc030) := by
  unfold cipherSuiteMap
  simp only [cipherSuiteLookup]
  by_cases h1 : "TLS_ECDHE_RSA_WITH_AES_128_GCM_SHA256" = cipherName
  · subst h1
    simp only [if_true, Option.some.injEq, true_and]
    constructor
    · intro h
      exact Or.inl h.symm
    · rintro (h | ⟨h, _⟩)
      · exact h.symm
      · exact absurd h (by decide)
  · by_cases h2 : "TLS_ECDHE_RSA_WITH_AES_256_GCM_SHA384" = cipherName
    · subst h2
      have hne : ¬ ("TLS_ECDHE_RSA_WITH_AES_128_GCM_SHA256" : String)
          = "TLS_ECDHE_RSA_WITH_AES_256_GCM_SHA384" := by decide
      simp only [hne, if_false, if_true, Option.some.injEq, true_and]
      constructor
      · intro h
        exact Or.inr h.symm
      · rintro (⟨h, _⟩ | h)
        · exact absurd h (by decide)
        · exact h.symm
    · simp only [h1, h2, if_false]
      constructor
      · intro h
        cases h
      · rintro (⟨h, _⟩ | ⟨h, _⟩)
        · exact absurd h.symm h1
        · exact absurd h.symm h2

/-- The loop of `getCipherSuites` returns `none` as soon as a non-empty trimmed
name is not in the map, and otherwise appends the identifiers in order. -/
theorem getCipherSuitesLoop_eq (names : List String) :
    ∀ acc : List Nat,
      getCipherSuitesLoop names acc =
        if ∀ name ∈ (names.map TrimSpace).filter (fun n => decide (n ≠ "")),
            (cipherSuiteLookup cipherSuiteMap name).isSome then
          some (acc ++ ((names.map TrimSpace).filter fun n => decide (n ≠ "")).filterMap
            (cipherSuiteLookup cipherSuiteMap))
        else none := by
  induction names with
  | nil => intro acc; simp [getCipherSuitesLoop]
  | cons name rest ih =>
    intro acc
    unfold getCipherSuitesLoop
    by_cases he : TrimSpace name = ""
    · have hl : (TrimSpace name).length = 0 := by rw [he]; rfl
      simp only [hl, if_true, ih, List.map_cons, he]
      simp
    · have hl : ¬ (TrimSpace name).length = 0 := by
        intro h0
        apply he
        apply String.ext
        exact List.length_eq_zero.mp h0
      simp only [hl, if_false, List.map_cons]
      cases hlook : cipherSuiteLookup cipherSuiteMap (TrimSpace name) with
      | none =>
        simp [List.filter_cons, he, hlook]
      | some v =>
        simp [List.filter_cons, he, hlook, ih]

/-- The result of `getCipherSuites`: `none` when a non-empty trimmed name is not
in the map or when there is no non-empty name, and otherwise the identifiers of
the names in the order given. -/
theorem getCipherSuites_eq (sslCiphers : String) :
    getCipherSuites sslCiphers =
      if (∀ name ∈ ((Split sslCiphers ',').map TrimSpace).filter (fun n => decide (n ≠ "")),
            (cipherSuiteLookup cipherSuiteMap name).isSome) ∧
          ((Split sslCiphers ',').map TrimSpace).filter (fun n => decide (n ≠ "")) ≠ [] then
        some ((((Split sslCiphers ',').map TrimSpace).filter fun n => decide (n ≠ "")).filterMap
          (cipherSuiteLookup cipherSuiteMap))
      else none := by
  unfold getCipherSuites
  simp only [getCipherSuitesLoop_eq, List.nil_append]
  generalize ((Split sslCiphers ',').map TrimSpace).filter (fun n => decide (n ≠ "")) = wanted
  by_cases hall : ∀ name ∈ wanted, (cipherSuiteLookup cipherSuiteMap name).isSome
  · rw [if_pos hall]
    cases wanted with
    | nil => simp
    | cons n ns =>
      have hn := hall n (by simp)
      obtain ⟨v, hv⟩ := Option.isSome_iff_exists.mp hn
      have hpos : 0 < (List.filterMap (cipherSuiteLookup cipherSuiteMap) (n :: ns)).length := by
        simp [List.filterMap_cons, hv]
      have hcond : (∀ name ∈ n :: ns, (cipherSuiteLookup cipherSuiteMap name).isSome) ∧
          n :: ns ≠ [] := ⟨hall, by simp⟩
      rw [if_pos hcond]
      simp only [gt_iff_lt, hpos, if_true]
  · rw [if_neg hall]
    have hcond : ¬ ((∀ name ∈ wanted, (cipherSuiteLookup cipherSuiteMap name).isSome) ∧
        wanted ≠ []) := fun h => hall h.1
    rw [if_neg hcond]

/-- `TLSConfig` never returns a configuration when the cipher configuration is
empty or `getCipherSuites` returns `nil`. -/
theorem TLSConfig_no_config (env : TlsEnv) (crtName : String)
    (hbad : (env.GetAppConfig.1 "ssl_ciphers").utf8ByteSize = 0 ∨
      getCipherSuites (env.GetAppConfig.1 "ssl_ciphers") = none) :
    (TLSConfig env crtName).1 = none := by
  unfold TLSConfig
  simp only
  split
  · rfl
  · split
    · rfl
    · split
      · rfl
      · split
        · rfl
        · split
          · rfl
          · split
            · rfl
            · split
              · rfl
              · rename_i h1 _ _ hsome
                rcases hbad with hbad | hbad
                · exact absurd hbad h1
                · rw [hbad] at hsome
                  cases hsome

/-- With a server name that passes `ValidateServerName`, `TLSConfig` returns an
error when the cipher configuration is empty or `getCipherSuites` returns `nil`. -/
theorem TLSConfig_cipher_error (env : TlsEnv) (crtName : String)
    (hname : ValidateServerName env (env.GetAppConfig.1 "server_name") = (true, none))
    (hbad : (env.GetAppConfig.1 "ssl_ciphers").utf8ByteSize = 0 ∨
      getCipherSuites (env.GetAppConfig.1 "ssl_ciphers") = none) :
    (TLSConfig env crtName).2 ≠ none := by
  unfold TLSConfig
  simp only [hname]
  split
  · simp
  · split
    · simp
    · split
      · simp
      · split
        · simp
        · simp only [ne_eq, not_true_eq_false, Bool.not_eq_true, or_self, if_false]
          split
          · simp
          · split
            · simp
            · rename_i h1 _ _ hsome
              rcases hbad with hbad | hbad
              · exact absurd hbad h1
              · rw [hbad] at hsome
                cases hsome

/-- C16 at its failing input: a configuration with a readable certificate, a
server name that the pattern rejects without error, and an empty cipher
configuration (on which `getCipherSuites` returns `nil`).  `TLSConfig` returns
the `nil` error of `ValidateServerName` together with a `nil` configuration, so
it does not fail with an error. -/
theorem TLSConfig_nil_error :
    sampleTlsEnv.GetAppConfig.1 "ssl_ciphers" = "" ∧
    getCipherSuites (sampleTlsEnv.GetAppConfig.1 "ssl_ciphers") = none ∧
    ValidateServerName sampleTlsEnv (sampleTlsEnv.GetAppConfig.1 "server_name") = (false, none) ∧
    TLSConfig sampleTlsEnv "apigw_cacert" = (none, none) := by
  decide

/-! ## Defects of the decode path -/

/-- C17 at its failing input: two grant types.  `transportInfoToProperties`
joins them with the full-width comma U+FF0C and `transportInfoFromProperties`
splits at the ASCII comma, so the list read back has the single entry
`OAUTH2_AUTHORIZATION_CODE，OAUTH2_CLIENT_CREDENTIALS` instead of the two
entries written. -/
theorem grantTypes_not_reproduced :
    twoGrantService.TransportInfo.Security.OAuth2Info.GrantTypes =
      ["OAUTH2_AUTHORIZATION_CODE", "OAUTH2_CLIENT_CREDENTIALS"] ∧
    mapGet (transportInfoToProperties sampleEnv twoGrantService [])
        "transportInfo/security/oAuth2Info/grantTypes" =
      "OAUTH2_AUTHORIZATION_CODE，OAUTH2_CLIENT_CREDENTIALS" ∧
    (transportInfoFromProperties {}
        (transportInfoToProperties sampleEnv twoGrantService [])).TransportInfo.Security.OAuth2Info.GrantTypes =
      ["OAUTH2_AUTHORIZATION_CODE，OAUTH2_CLIENT_CREDENTIALS"] ∧
    (transportInfoFromProperties {}
        (transportInfoToProperties sampleEnv twoGrantService [])).TransportInfo.Security.OAuth2Info.GrantTypes ≠
      twoGrantService.TransportInfo.Security.OAuth2Info.GrantTypes := by
  decide

/-- C18 at its failing input: the description `alternativeService`, whose
alternative `toEndpoints` encodes as the text `json7`, which `JsonTextToObj`
parses without error into the same object.  `fromEndpoints` assigns the parsed
object only when the parse returns an error, so the decoded description has no
alternative. -/
theorem alternative_not_decoded :
    toEndpoints sampleEnv alternativeService = some (["json7"], "alternative", []) ∧
    sampleEnv.JsonTextToObj "json7" = (alternativeService.TransportInfo.Endpoint.Alternative, false) ∧
    alternativeInstance.Endpoints = ["json7"] ∧
    instanceProperty alternativeInstance "endPointType" = "alternative" ∧
    (∃ s', FromServiceInstance sampleEnv {} (some alternativeInstance) = some s' ∧
      s'.TransportInfo.Endpoint.Alternative = none) ∧
    (∃ s', roundTrip sampleEnv alternativeService {} = some s' ∧
      s'.TransportInfo.Endpoint.Alternative = none ∧
      alternativeService.TransportInfo.Endpoint.Alternative = some ⟨7⟩) :=
  ⟨by decide, rfl, rfl, by decide, ⟨_, rfl, by decide⟩, ⟨_, rfl, by decide, rfl⟩⟩

/-- C19 at its failing input: an instance with a non-nil property bag, endpoint
kind `alternative` and an empty endpoint list.  `fromEndpoints` indexes
`uris[0]` without a length check, so `FromServiceInstance` panics. -/
theorem decode_panics :
    brokenInstance.Properties = some [("endPointType", "alternative"), ("serName", "svc")] ∧
    brokenInstance.Endpoints = [] ∧
    fromEndpoints sampleEnv {} brokenInstance.Endpoints "alternative" = none ∧
    FromServiceInstance sampleEnv {} (some brokenInstance) = none := by
  decide

end Mep
